import Mathlib

/-!
Verification of the Euclidean knowledge-graph embedding models in
`rudders/models/euclidean.py` (repository `recommendation-rudders`).

Tensors are embedded shallowly: a vector is a `List ℚ`, a batch of vectors
(a rank-2 tensor) is a `List (List ℚ)`, and a rank-3 tensor is a
`List (List (List ℚ))`.  Fallible tensor operations (embedding lookups with
possibly out-of-range ids, elementwise operations on possibly mismatched
shapes) return `Option`, with `none` standing for the runtime error the
tensor framework would raise.
-/

set_option autoImplicit false

/-- Vectors: rank-1 tensors of rationals. -/
abbrev Vec := List ℚ

/-- Batches of vectors / embedding tables: rank-2 tensors. -/
abbrev Mat := List Vec

/-- Squared Euclidean distance between two vectors,
`sum_k (x_k - y_k)^2` over the common prefix. -/
def sqDistVec (x y : Vec) : ℚ :=
  (List.zipWith (fun a b => (a - b) ^ 2) x y).sum

/-- Dot product of two vectors over their common prefix. -/
def dot (x y : Vec) : ℚ :=
  (List.zipWith (· * ·) x y).sum

/-- Elementwise sum of two vectors (TensorFlow `+` on equal shapes). -/
def vadd (x y : Vec) : Vec := List.zipWith (· + ·) x y

/-- Elementwise product of two vectors (TensorFlow `*` / `tf.multiply`). -/
def vmul (x y : Vec) : Vec := List.zipWith (· * ·) x y

/-- Elementwise negation of a rank-2 tensor (the unary `-` in the sources). -/
def matNeg (a : Mat) : Mat := a.map (fun row => row.map (fun q => -q))

/-- Shape conformance of two rank-2 tensors: same number of rows and
rowwise equal lengths.  Elementwise binary operations require it. -/
def sameShape : Mat → Mat → Bool
  | [], [] => true
  | x :: xs, y :: ys => x.length == y.length && sameShape xs ys
  | _, _ => false

/-- Elementwise (rowwise) binary operation on two rank-2 tensors; errors on a
shape mismatch, as the tensor framework would. -/
def batchOp (f : Vec → Vec → Vec) (a b : Mat) : Option Mat :=
  if sameShape a b then some (List.zipWith f a b) else none

/-- Modelled from the spec: the embedding tables of `CFModel`, `MuRBase` and
`RotRefBase` are declared in `rudders/models/base.py`, which is not among the
provided sources.  The spec describes them as an entity embedding table
(entity id → vector), a relation embedding table (relation id → vector), and
optionally per-relation transform parameters (MuR) and rotation/reflection
parameters (RotRef), initialized at construction and read during scoring. -/
structure CFModelState where
  entities : Mat
  relations : Mat
  transforms : Mat
  rotations : Mat
  reflections : Mat
deriving Repr, DecidableEq

/-- Table entry at an index, with the empty vector as junk value for an
out-of-range index (used only under in-bounds hypotheses). -/
def tget (table : Mat) (i : ℕ) : Vec := table.getD i []

/-- Embedding lookup of a list of ids in a table (a TensorFlow embedding
layer applied to an id tensor); an out-of-range id is a runtime error. -/
def embed (table : Mat) : List ℕ → Option Mat
  | [] => some []
  | i :: is => (table[i]?).bind (fun v => (embed table is).map (fun vs => v :: vs))

/-- Column extraction `input_tensor[:, j]` for a fixed nonnegative `j`:
taking the `j`-th entry of a row with at most `j` entries is a shape error. -/
def colNth (j : ℕ) : List (List ℕ) → Option (List ℕ)
  | [] => some []
  | row :: rows => (row[j]?).bind (fun x => (colNth j rows).map (fun xs => x :: xs))

/-- Column extraction `input_tensor[:, -1]` (the last column): an empty row
has no last entry, which is a shape error. -/
def colLast : List (List ℕ)  → Option (List ℕ)
  | [] => some []
  | row :: rows => row.getLast?.bind (fun x => (colLast rows).map (fun xs => x :: xs))

/-- Modelled from the spec: `euclidean_sq_distance` lives in
`rudders/math/euclid.py`, which is not among the provided sources.  Per the
spec ("batched distance reduction"; "TransE score equals negative squared
distance between head+relation and tail") it computes squared Euclidean
distances: rowwise with `all_pairs = False`, giving a `B × 1` column
(`keepdims`), and over all row pairs with `all_pairs = True`, giving a
`B1 × B2` matrix.  Mismatched operand shapes are a runtime error. -/
def euclidean_sq_distance (lhs rhs : Mat) (all_pairs : Bool) : Option Mat :=
  if all_pairs then
    if lhs.all (fun x => rhs.all (fun y => x.length == y.length)) then
      some (lhs.map (fun x => rhs.map (fun y => sqDistVec x y)))
    else none
  else
    if sameShape lhs rhs then
      some (List.zipWith (fun x y => [sqDistVec x y]) lhs rhs)
    else none

/-- Modelled from the spec: `euclidean_sq_distance_batched_all_pairs` lives in
`rudders/math/euclid.py`, which is not among the provided sources.  Per the
docstring of `UserAttentiveEuclidean.similarity_score` it takes
`lhs : B1 × dims` and `rhs : B1 × B2 × dims` and returns the `B1 × B2`
matrix of squared distances between `lhs[i]` and `rhs[i][j]`. -/
def euclidean_sq_distance_batched_all_pairs (lhs : Mat) (rhs : List Mat) : Option Mat :=
  if lhs.length == rhs.length
      && (List.zip lhs rhs).all (fun p => p.2.all (fun y => p.1.length == y.length)) then
    some (List.zipWith (fun x ys => ys.map (fun y => sqDistVec x y)) lhs rhs)
  else none

/-- `CFEuclideanBase.get_rhs`: `self.entities(input_tensor[:, -1])`. -/
def CFEuclideanBase.get_rhs (m : CFModelState) (input : List (List ℕ)) : Option Mat :=
  (colLast input).bind (fun ids => embed m.entities ids)

/-- `CFEuclideanBase.similarity_score`:
`-euclidean_sq_distance(lhs, rhs, all_items)`. -/
def CFEuclideanBase.similarity_score (lhs rhs : Mat) (all_items : Bool) : Option Mat :=
  (euclidean_sq_distance lhs rhs all_items).map matNeg

/-- `SimpleFactor.get_lhs`:
`tf.multiply(self.entities(input[:, 0]), self.relations(input[:, 1]))`. -/
def SimpleFactor.get_lhs (m : CFModelState) (input : List (List ℕ)) : Option Mat :=
  (colNth 0 input).bind (fun hids =>
  (embed m.entities hids).bind (fun ents =>
  (colNth 1 input).bind (fun rids =>
  (embed m.relations rids).bind (fun rels =>
  batchOp vmul ents rels))))

/-- `SimpleFactor.get_rhs` is inherited unchanged from `CFEuclideanBase`. -/
def SimpleFactor.get_rhs : CFModelState → List (List ℕ) → Option Mat :=
  CFEuclideanBase.get_rhs

/-- `SimpleFactor.similarity_score`: `tf.matmul(lhs, tf.transpose(rhs))`
when `all_items`, else `tf.reduce_sum(lhs * rhs, axis=-1, keepdims=True)`. -/
def SimpleFactor.similarity_score (lhs rhs : Mat) (all_items : Bool) : Option Mat :=
  if all_items then
    if lhs.all (fun x => rhs.all (fun y => x.length == y.length)) then
      some (lhs.map (fun x => rhs.map (fun y => dot x y)))
    else none
  else
    if sameShape lhs rhs then
      some (List.zipWith (fun x y => [dot x y]) lhs rhs)
    else none

/-- `TransE.get_lhs`:
`self.entities(input[:, 0]) + self.relations(input[:, 1])`. -/
def TransE.get_lhs (m : CFModelState) (input : List (List ℕ)) : Option Mat :=
  (colNth 0 input).bind (fun hids =>
  (embed m.entities hids).bind (fun ents =>
  (colNth 1 input).bind (fun rids =>
  (embed m.relations rids).bind (fun rels =>
  batchOp vadd ents rels))))

/-- `TransE.get_rhs` is inherited unchanged from `CFEuclideanBase`. -/
def TransE.get_rhs : CFModelState → List (List ℕ) → Option Mat :=
  CFEuclideanBase.get_rhs

/-- `MuREuclidean.get_lhs`:
`self.transforms(input[:, 1]) * self.entities(input[:, 0])`. -/
def MuREuclidean.get_lhs (m : CFModelState) (input : List (List ℕ)) : Option Mat :=
  (colNth 0 input).bind (fun hids =>
  (embed m.entities hids).bind (fun heads =>
  (colNth 1 input).bind (fun rids =>
  (embed m.transforms rids).bind (fun relTransforms =>
  batchOp vmul relTransforms heads))))

/-- `MuREuclidean.get_rhs`:
`self.entities(input[:, -1]) + self.relations(input[:, 1])`. -/
def MuREuclidean.get_rhs (m : CFModelState) (input : List (List ℕ)) : Option Mat :=
  (colLast input).bind (fun tids =>
  (embed m.entities tids).bind (fun tails =>
  (colNth 1 input).bind (fun rids =>
  (embed m.relations rids).bind (fun relAdditions =>
  batchOp vadd tails relAdditions))))

/-- Modelled from the spec: `RotRefBase.get_heads` lives in
`rudders/models/base.py`, which is not among the provided sources.  The spec
records only that RotRef carries per-relation rotation and reflection
parameters; we model `get_heads` as the head entity embedding transformed
elementwise by the per-relation rotation and reflection parameter vectors,
reading only model state. -/
def RotRefBase.get_heads (m : CFModelState) (input : List (List ℕ)) : Option Mat :=
  (colNth 0 input).bind (fun hids =>
  (embed m.entities hids).bind (fun heads =>
  (colNth 1 input).bind (fun rids =>
  (embed m.rotations rids).bind (fun rots =>
  (embed m.reflections rids).bind (fun refls =>
  (batchOp vmul rots heads).bind (fun rotated =>
  batchOp vmul refls rotated))))))

/-- `RotRefEuclidean.get_lhs`:
`self.get_heads(input) + self.relations(input[:, 1])`. -/
def RotRefEuclidean.get_lhs (m : CFModelState) (input : List (List ℕ)) : Option Mat :=
  (RotRefBase.get_heads m input).bind (fun headEmbeds =>
  (colNth 1 input).bind (fun rids =>
  (embed m.relations rids).bind (fun relEmbeds =>
  batchOp vadd headEmbeds relEmbeds)))

/-- `RotRefEuclidean.get_rhs` is inherited unchanged from `CFEuclideanBase`. -/
def RotRefEuclidean.get_rhs : CFModelState → List (List ℕ) → Option Mat :=
  CFEuclideanBase.get_rhs

/-- `UserAttentiveEuclidean.similarity_score` with `all_items = True`:
`-euclidean_sq_distance_batched_all_pairs(lhs, rhs)` on `rhs : B1 × B2 × dims`
(the rank of `rhs` differs between the two branches, so the embedding splits
the Python function by the `all_items` flag). -/
def UserAttentiveEuclidean.similarity_score_all (lhs : Mat) (rhs : List Mat) : Option Mat :=
  (euclidean_sq_distance_batched_all_pairs lhs rhs).map matNeg

/-- `UserAttentiveEuclidean.similarity_score` with `all_items = False`:
`-euclidean_sq_distance(lhs, rhs, all_pairs=False)`. -/
def UserAttentiveEuclidean.similarity_score_single (lhs rhs : Mat) : Option Mat :=
  (euclidean_sq_distance lhs rhs false).map matNeg

/-! State-threaded versions of the scoring operations.  Each one mirrors its
source method line by line, with every attribute access (`self.entities`,
`self.relations`, `self.transforms`, rotation/reflection parameters) made an
explicit read of the model state, so that preservation of the state is a
theorem rather than a convention. -/

/-- Model-state monad for the scoring operations. -/
abbrev ModelM := StateM CFModelState

/-- Read of `self.entities`. -/
def readEntities : ModelM Mat := fun s => (s.entities, s)

/-- Read of `self.relations`. -/
def readRelations : ModelM Mat := fun s => (s.relations, s)

/-- Read of `self.transforms`. -/
def readTransforms : ModelM Mat := fun s => (s.transforms, s)

/-- Read of the RotRef rotation parameters. -/
def readRotations : ModelM Mat := fun s => (s.rotations, s)

/-- Read of the RotRef reflection parameters. -/
def readReflections : ModelM Mat := fun s => (s.reflections, s)

/-- State-threaded `CFEuclideanBase.get_rhs`. -/
def CFEuclideanBase.get_rhsM (input : List (List ℕ)) : ModelM (Option Mat) := do
  let entityTable ← readEntities
  pure ((colLast input).bind (fun ids => embed entityTable ids))

/-- State-threaded `CFEuclideanBase.similarity_score` (reads no attribute). -/
def CFEuclideanBase.similarity_scoreM (lhs rhs : Mat) (all_items : Bool) :
    ModelM (Option Mat) :=
  pure (CFEuclideanBase.similarity_score lhs rhs all_items)

/-- State-threaded `SimpleFactor.get_lhs`. -/
def SimpleFactor.get_lhsM (input : List (List ℕ)) : ModelM (Option Mat) := do
  let entityTable ← readEntities
  let relationTable ← readRelations
  pure ((colNth 0 input).bind (fun hids =>
    (embed entityTable hids).bind (fun ents =>
    (colNth 1 input).bind (fun rids =>
    (embed relationTable rids).bind (fun rels =>
    batchOp vmul ents rels)))))

/-- State-threaded `SimpleFactor.similarity_score` (reads no attribute). -/
def SimpleFactor.similarity_scoreM (lhs rhs : Mat) (all_items : Bool) :
    ModelM (Option Mat) :=
  pure (SimpleFactor.similarity_score lhs rhs all_items)

/-- State-threaded `TransE.get_lhs`. -/
def TransE.get_lhsM (input : List (List ℕ)) : ModelM (Option Mat) := do
  let entityTable ← readEntities
  let relationTable ← readRelations
  pure ((colNth 0 input).bind (fun hids =>
    (embed entityTable hids).bind (fun ents =>
    (colNth 1 input).bind (fun rids =>
    (embed relationTable rids).bind (fun rels =>
    batchOp vadd ents rels)))))

/-- State-threaded `MuREuclidean.get_lhs`. -/
def MuREuclidean.get_lhsM (input : List (List ℕ)) : ModelM (Option Mat) := do
  let entityTable ← readEntities
  let transformTable ← readTransforms
  pure ((colNth 0 input).bind (fun hids =>
    (embed entityTable hids).bind (fun heads =>
    (colNth 1 input).bind (fun rids =>
    (embed transformTable rids).bind (fun relTransforms =>
    batchOp vmul relTransforms heads)))))

/-- State-threaded `MuREuclidean.get_rhs`. -/
def MuREuclidean.get_rhsM (input : List (List ℕ)) : ModelM (Option Mat) := do
  let entityTable ← readEntities
  let relationTable ← readRelations
  pure ((colLast input).bind (fun tids =>
    (embed entityTable tids).bind (fun tails =>
    (colNth 1 input).bind (fun rids =>
    (embed relationTable rids).bind (fun relAdditions =>
    batchOp vadd tails relAdditions)))))

/-- State-threaded `RotRefBase.get_heads` (modelled from the spec, as above). -/
def RotRefBase.get_headsM (input : List (List ℕ)) : ModelM (Option Mat) := do
  let entityTable ← readEntities
  let rotationTable ← readRotations
  let reflectionTable ← readReflections
  pure ((colNth 0 input).bind (fun hids =>
    (embed entityTable hids).bind (fun heads =>
    (colNth 1 input).bind (fun rids =>
    (embed rotationTable rids).bind (fun rots =>
    (embed reflectionTable rids).bind (fun refls =>
    (batchOp vmul rots heads).bind (fun rotated =>
    batchOp vmul refls rotated)))))))

/-- State-threaded `RotRefEuclidean.get_lhs`. -/
def RotRefEuclidean.get_lhsM (input : List (List ℕ)) : ModelM (Option Mat) := do
  let headEmbedsOpt ← RotRefBase.get_headsM input
  let relationTable ← readRelations
  pure (headEmbedsOpt.bind (fun headEmbeds =>
    (colNth 1 input).bind (fun rids =>
    (embed relationTable rids).bind (fun relEmbeds =>
    batchOp vadd headEmbeds relEmbeds))))

/-- State-threaded `UserAttentiveEuclidean.similarity_score`, `all_items`
branch (reads no attribute). -/
def UserAttentiveEuclidean.similarity_score_allM (lhs : Mat) (rhs : List Mat) :
    ModelM (Option Mat) :=
  pure (UserAttentiveEuclidean.similarity_score_all lhs rhs)

/-- State-threaded `UserAttentiveEuclidean.similarity_score`, single-item
branch (reads no attribute). -/
def UserAttentiveEuclidean.similarity_score_singleM (lhs rhs : Mat) :
    ModelM (Option Mat) :=
  pure (UserAttentiveEuclidean.similarity_score_single lhs rhs)

/-! Helper lemmas. -/

theorem sqDistVec_nil_left (y : Vec) : sqDistVec [] y = 0 := by
  cases y <;> rfl

theorem sqDistVec_nil_right (x : Vec) : sqDistVec x [] = 0 := by
  cases x <;> rfl

theorem sqDistVec_cons (a b : ℚ) (x y : Vec) :
    sqDistVec (a :: x) (b :: y) = (a - b) ^ 2 + sqDistVec x y := by
  simp [sqDistVec]

theorem sqDistVec_comm (x : Vec) : ∀ y : Vec, sqDistVec x y = sqDistVec y x := by
  induction x with
  | nil => intro y; rw [sqDistVec_nil_left, sqDistVec_nil_right]
  | cons a xs ih =>
    intro y
    cases y with
    | nil => rw [sqDistVec_nil_left, sqDistVec_nil_right]
    | cons b ys =>
      rw [sqDistVec_cons, sqDistVec_cons, ih]
      have h : (a - b) ^ 2 = (b - a) ^ 2 := by ring
      rw [h]

theorem sqDistVec_nonneg (x : Vec) : ∀ y : Vec, 0 ≤ sqDistVec x y := by
  induction x with
  | nil => intro y; rw [sqDistVec_nil_left]
  | cons a xs ih =>
    intro y
    cases y with
    | nil => rw [sqDistVec_nil_right]
    | cons b ys =>
      rw [sqDistVec_cons]
      exact add_nonneg (sq_nonneg _) (ih ys)

theorem sqDistVec_eq_zero_iff (x : Vec) :
    ∀ y : Vec, x.length = y.length → (sqDistVec x y = 0 ↔ x = y) := by
  induction x with
  | nil =>
    intro y h
    cases y with
    | nil => simp [sqDistVec_nil_left]
    | cons b ys => simp at h
  | cons a xs ih =>
    intro y h
    cases y with
    | nil => simp at h
    | cons b ys =>
      rw [sqDistVec_cons,
        add_eq_zero_iff_of_nonneg (sq_nonneg _) (sqDistVec_nonneg xs ys),
        sq_eq_zero_iff, sub_eq_zero, ih ys (by simpa using h)]
      constructor
      · rintro ⟨rfl, rfl⟩; rfl
      · intro hxy
        injection hxy with h1 h2
        exact ⟨h1, h2⟩

theorem dot_cons (a b : ℚ) (x y : Vec) :
    dot (a :: x) (b :: y) = a * b + dot x y := by
  simp [dot]

theorem dot_comm (x : Vec) : ∀ y : Vec, dot x y = dot y x := by
  induction x with
  | nil => intro y; cases y <;> rfl
  | cons a xs ih =>
    intro y
    cases y with
    | nil => rfl
    | cons b ys => rw [dot_cons, dot_cons, ih, mul_comm]

theorem sameShape_iff (a : Mat) :
    ∀ b : Mat, sameShape a b = true ↔
      List.Forall₂ (fun x y => List.length x = List.length y) a b := by
  induction a with
  | nil =>
    intro b
    cases b <;> simp [sameShape]
  | cons x xs ih =>
    intro b
    cases b with
    | nil => simp [sameShape]
    | cons y ys =>
      simp [sameShape, Bool.and_eq_true, beq_iff_eq, ih, List.forall₂_cons]

theorem getElem?_isSome_iff {α : Type} (l : List α) (i : ℕ) :
    (l[i]?).isSome = true ↔ i < l.length := by
  rcases Nat.lt_or_ge i l.length with h | h
  · simp [List.getElem?_eq_getElem h, h]
  · rw [List.getElem?_eq_none_iff.mpr h]
    simp
    omega

theorem forall₂_idx {α β : Type} {R : α → β → Prop} {a : List α} {b : List β}
    (h : List.Forall₂ R a b) :
    ∀ (i : ℕ) (x : α) (y : β), a[i]? = some x → b[i]? = some y → R x y := by
  induction h with
  | nil => intro i x y hx; simp at hx
  | cons hr _ ih =>
    intro i x y hx hy
    cases i with
    | zero =>
      simp at hx hy
      rw [← hx, ← hy]
      exact hr
    | succ n =>
      simp at hx hy
      exact ih n x y hx hy

theorem forall₂_mem_left {α β : Type} {R : α → β → Prop} {a : List α} {b : List β}
    (h : List.Forall₂ R a b) :
    ∀ x ∈ a, ∃ y ∈ b, R x y := by
  induction h with
  | nil => intro x hx; simp at hx
  | cons hr _ ih =>
    intro x hx
    rcases List.mem_cons.mp hx with rfl | hx
    · exact ⟨_, List.mem_cons_self _ _, hr⟩
    · obtain ⟨y, hy, hxy⟩ := ih x hx
      exact ⟨y, List.mem_cons_of_mem _ hy, hxy⟩

theorem zipWith_idx {α β γ : Type} (f : α → β → γ) :
    ∀ (a : List α) (b : List β) (i : ℕ),
      (List.zipWith f a b)[i]? = (a[i]?).bind (fun x => (b[i]?).map (fun y => f x y)) := by
  intro a
  induction a with
  | nil => intro b i; cases b <;> simp
  | cons x xs ih =>
    intro b i
    cases b with
    | nil => simp
    | cons y ys =>
      cases i with
      | zero => simp
      | succ n => simp [ih]

theorem sameShape_map {β : Type} (l : List β) (f g : β → Vec)
    (h : ∀ x ∈ l, (f x).length = (g x).length) :
    sameShape (l.map f) (l.map g) = true := by
  rw [sameShape_iff]
  rw [List.forall₂_map_left_iff, List.forall₂_map_right_iff]
  exact List.forall₂_same.mpr h

theorem tget_eq_getElem (table : Mat) (i : ℕ) (hi : i < table.length) :
    tget table i = table[i] := by
  simp [tget, List.getD_eq_getElem?_getD, List.getElem?_eq_getElem hi]

theorem tget_length (table : Mat) (d : ℕ) (hT : ∀ v ∈ table, v.length = d)
    (i : ℕ) (hi : i < table.length) : (tget table i).length = d := by
  rw [tget_eq_getElem table i hi]
  exact hT _ (List.getElem_mem hi)

theorem embed_eq_map (table : Mat) :
    ∀ ids : List ℕ, (∀ i ∈ ids, i < table.length) →
      embed table ids = some (ids.map (tget table)) := by
  intro ids
  induction ids with
  | nil => intro _; rfl
  | cons i is ih =>
    intro h
    have hi : i < table.length := h i (List.mem_cons_self i is)
    have hrest := ih (fun j hj => h j (List.mem_cons_of_mem _ hj))
    simp [embed, List.getElem?_eq_getElem hi, hrest, tget_eq_getElem table i hi]

theorem embed_isSome_iff (table : Mat) :
    ∀ ids : List ℕ, (embed table ids).isSome = true ↔ ∀ i ∈ ids, i < table.length := by
  intro ids
  induction ids with
  | nil => simp [embed]
  | cons i is ih =>
    cases hv : table[i]? with
    | none =>
      have hge : table.length ≤ i := List.getElem?_eq_none_iff.mp hv
      simp [embed, hv]
      intro hlt
      omega
    | some v =>
      have hlt : i < table.length := by
        have : (table[i]?).isSome = true := by simp [hv]
        exact (getElem?_isSome_iff table i).mp this
      simp [embed, hv, ih, hlt]

theorem colNth_eq_map (j : ℕ) :
    ∀ input : List (List ℕ), (∀ row ∈ input, j < row.length) →
      colNth j input = some (input.map (fun row => row.getD j 0)) := by
  intro input
  induction input with
  | nil => intro _; rfl
  | cons row rows ih =>
    intro h
    have hj : j < row.length := h row (List.mem_cons_self _ _)
    have hrow : row[j]? = some (row.getD j 0) := by
      rw [List.getD_eq_getElem?_getD, List.getElem?_eq_getElem hj]
      rfl
    rw [colNth, hrow, ih (fun r hr => h r (List.mem_cons_of_mem _ hr))]
    rfl

theorem colLast_eq_map :
    ∀ input : List (List ℕ), (∀ row ∈ input, row ≠ []) →
      colLast input = some (input.map (fun row => row.getLastD 0)) := by
  intro input
  induction input with
  | nil => intro _; rfl
  | cons row rows ih =>
    intro h
    have hrow : row ≠ [] := h row (List.mem_cons_self _ _)
    obtain ⟨z, hz⟩ := Option.isSome_iff_exists.mp (List.getLast?_isSome.mpr hrow)
    have hlast : row.getLastD 0 = z := by
      simp [List.getLastD_eq_getLast?, hz]
    simp [colLast, hz, hlast, ih (fun r hr => h r (List.mem_cons_of_mem _ hr))]

theorem vadd_length (x y : Vec) : (vadd x y).length = min x.length y.length := by
  simp [vadd]

theorem vmul_length (x y : Vec) : (vmul x y).length = min x.length y.length := by
  simp [vmul]

theorem batchOp_map {β : Type} (op : Vec → Vec → Vec) (l : List β) (f g : β → Vec)
    (h : ∀ x ∈ l, (f x).length = (g x).length) :
    batchOp op (l.map f) (l.map g) = some (l.map (fun x => op (f x) (g x))) := by
  simp [batchOp, sameShape_map l f g h, List.zipWith_map, List.zipWith_same]

theorem score_false_maps {β : Type} (l : List β) (f g : β → Vec)
    (h : ∀ x ∈ l, (f x).length = (g x).length) :
    CFEuclideanBase.similarity_score (l.map f) (l.map g) false
      = some (l.map (fun x => [-sqDistVec (f x) (g x)])) := by
  have hshape := sameShape_map l f g h
  simp only [CFEuclideanBase.similarity_score, euclidean_sq_distance,
    Bool.false_eq_true, if_false, hshape, if_true]
  rw [List.zipWith_map, List.zipWith_same]
  simp [matNeg, List.map_map]

theorem lhs_pipeline (T1 T2 : Mat) (j0 j1 : ℕ) (op : Vec → Vec → Vec)
    (input : List (List ℕ))
    (h0 : ∀ row ∈ input, j0 < row.length) (h1 : ∀ row ∈ input, j1 < row.length)
    (hb0 : ∀ row ∈ input, row.getD j0 0 < T1.length)
    (hb1 : ∀ row ∈ input, row.getD j1 0 < T2.length)
    (hlen : ∀ row ∈ input,
      (tget T1 (row.getD j0 0)).length = (tget T2 (row.getD j1 0)).length) :
    (colNth j0 input).bind (fun ids0 =>
    (embed T1 ids0).bind (fun a =>
    (colNth j1 input).bind (fun ids1 =>
    (embed T2 ids1).bind (fun b =>
    batchOp op a b))))
      = some (input.map (fun row =>
          op (tget T1 (row.getD j0 0)) (tget T2 (row.getD j1 0)))) := by
  rw [colNth_eq_map j0 input h0, Option.some_bind,
    embed_eq_map T1 _ (by
      intro i hi
      obtain ⟨row, hrow, rfl⟩ := List.mem_map.mp hi
      exact hb0 row hrow),
    Option.some_bind, colNth_eq_map j1 input h1, Option.some_bind,
    embed_eq_map T2 _ (by
      intro i hi
      obtain ⟨row, hrow, rfl⟩ := List.mem_map.mp hi
      exact hb1 row hrow),
    Option.some_bind, List.map_map, List.map_map,
    batchOp_map op input _ _ (by
      intro row hrow
      simpa using hlen row hrow)]
  simp

theorem lhs_pipeline_swap (T1 T2 : Mat) (j0 j1 : ℕ) (op : Vec → Vec → Vec)
    (input : List (List ℕ))
    (h0 : ∀ row ∈ input, j0 < row.length) (h1 : ∀ row ∈ input, j1 < row.length)
    (hb0 : ∀ row ∈ input, row.getD j0 0 < T1.length)
    (hb1 : ∀ row ∈ input, row.getD j1 0 < T2.length)
    (hlen : ∀ row ∈ input,
      (tget T2 (row.getD j1 0)).length = (tget T1 (row.getD j0 0)).length) :
    (colNth j0 input).bind (fun ids0 =>
    (embed T1 ids0).bind (fun a =>
    (colNth j1 input).bind (fun ids1 =>
    (embed T2 ids1).bind (fun b =>
    batchOp op b a))))
      = some (input.map (fun row =>
          op (tget T2 (row.getD j1 0)) (tget T1 (row.getD j0 0)))) := by
  rw [colNth_eq_map j0 input h0, Option.some_bind,
    embed_eq_map T1 _ (by
      intro i hi
      obtain ⟨row, hrow, rfl⟩ := List.mem_map.mp hi
      exact hb0 row hrow),
    Option.some_bind, colNth_eq_map j1 input h1, Option.some_bind,
    embed_eq_map T2 _ (by
      intro i hi
      obtain ⟨row, hrow, rfl⟩ := List.mem_map.mp hi
      exact hb1 row hrow),
    Option.some_bind, List.map_map, List.map_map,
    batchOp_map op input _ _ (by
      intro row hrow
      simpa using hlen row hrow)]
  simp

theorem rhs_pipeline (T1 T2 : Mat) (j1 : ℕ) (op : Vec → Vec → Vec)
    (input : List (List ℕ))
    (hne : ∀ row ∈ input, row ≠ []) (h1 : ∀ row ∈ input, j1 < row.length)
    (hb0 : ∀ row ∈ input, row.getLastD 0 < T1.length)
    (hb1 : ∀ row ∈ input, row.getD j1 0 < T2.length)
    (hlen : ∀ row ∈ input,
      (tget T1 (row.getLastD 0)).length = (tget T2 (row.getD j1 0)).length) :
    (colLast input).bind (fun ids0 =>
    (embed T1 ids0).bind (fun a =>
    (colNth j1 input).bind (fun ids1 =>
    (embed T2 ids1).bind (fun b =>
    batchOp op a b))))
      = some (input.map (fun row =>
          op (tget T1 (row.getLastD 0)) (tget T2 (row.getD j1 0)))) := by
  rw [colLast_eq_map input hne, Option.some_bind,
    embed_eq_map T1 _ (by
      intro i hi
      obtain ⟨row, hrow, rfl⟩ := List.mem_map.mp hi
      exact hb0 row hrow),
    Option.some_bind, colNth_eq_map j1 input h1, Option.some_bind,
    embed_eq_map T2 _ (by
      intro i hi
      obtain ⟨row, hrow, rfl⟩ := List.mem_map.mp hi
      exact hb1 row hrow),
    Option.some_bind, List.map_map, List.map_map,
    batchOp_map op input _ _ (by
      intro row hrow
      simpa using hlen row hrow)]
  simp

theorem base_rhs_eq (m : CFModelState) (input : List (List ℕ))
    (hne : ∀ row ∈ input, row ≠ [])
    (hb : ∀ row ∈ input, row.getLastD 0 < m.entities.length) :
    CFEuclideanBase.get_rhs m input
      = some (input.map (fun row => tget m.entities (row.getLastD 0))) := by
  rw [CFEuclideanBase.get_rhs, colLast_eq_map input hne, Option.some_bind,
    embed_eq_map m.entities _ (by
      intro i hi
      obtain ⟨row, hrow, rfl⟩ := List.mem_map.mp hi
      exact hb row hrow),
    List.map_map]
  rfl

/-! Claim theorems. -/

/-- C1: for every batch of (head, relation, tail) id triples within table
bounds (with the model's fixed embedding dimension `d`), the TransE score —
`similarity_score` applied to `get_lhs` and `get_rhs` of that batch — equals,
row by row, the negative squared Euclidean distance between
(head embedding + relation embedding) and the tail embedding. -/
theorem C1_transe_score (m : CFModelState) (d : ℕ)
    (hE : ∀ v ∈ m.entities, v.length = d) (hR : ∀ v ∈ m.relations, v.length = d)
    (batch : List (List ℕ))
    (hb : ∀ row ∈ batch, ∃ h r t : ℕ, row = [h, r, t] ∧
      h < m.entities.length ∧ r < m.relations.length ∧ t < m.entities.length) :
    ∃ lhs rhs : Mat,
      TransE.get_lhs m batch = some lhs ∧
      TransE.get_rhs m batch = some rhs ∧
      CFEuclideanBase.similarity_score lhs rhs false
        = some (batch.map (fun row =>
            [-sqDistVec
              (vadd (tget m.entities (row.getD 0 0))
                (tget m.relations (row.getD 1 0)))
              (tget m.entities (row.getD 2 0))])) := by
  have hb0 : ∀ row ∈ batch, row.getD 0 0 < m.entities.length := by
    intro row hrow
    obtain ⟨h, r, t, rfl, hh, _, _⟩ := hb row hrow
    exact hh
  have hb1 : ∀ row ∈ batch, row.getD 1 0 < m.relations.length := by
    intro row hrow
    obtain ⟨h, r, t, rfl, _, hr, _⟩ := hb row hrow
    exact hr
  have hb2 : ∀ row ∈ batch, row.getD 2 0 < m.entities.length := by
    intro row hrow
    obtain ⟨h, r, t, rfl, _, _, ht⟩ := hb row hrow
    exact ht
  have hlhs : TransE.get_lhs m batch
      = some (batch.map (fun row =>
          vadd (tget m.entities (row.getD 0 0)) (tget m.relations (row.getD 1 0)))) :=
    lhs_pipeline m.entities m.relations 0 1 vadd batch
      (by
        intro row hrow
        obtain ⟨h, r, t, rfl, _⟩ := hb row hrow
        simp)
      (by
        intro row hrow
        obtain ⟨h, r, t, rfl, _⟩ := hb row hrow
        simp)
      hb0 hb1
      (by
        intro row hrow
        rw [tget_length m.entities d hE _ (hb0 row hrow),
          tget_length m.relations d hR _ (hb1 row hrow)])
  have hrhs : TransE.get_rhs m batch
      = some (batch.map (fun row => tget m.entities (row.getD 2 0))) := by
    have hbase : CFEuclideanBase.get_rhs m batch
        = some (batch.map (fun row => tget m.entities (row.getLastD 0))) :=
      base_rhs_eq m batch
        (by
          intro row hrow
          obtain ⟨h, r, t, rfl, _⟩ := hb row hrow
          simp)
        (by
          intro row hrow
          obtain ⟨h, r, t, rfl, _⟩ := hb row hrow
          simpa using hb2 _ hrow)
    rw [TransE.get_rhs, hbase]
    congr 1
    apply List.map_congr_left
    intro row hrow
    obtain ⟨h, r, t, rfl, _⟩ := hb row hrow
    simp
  refine ⟨_, _, hlhs, hrhs, ?_⟩
  apply score_false_maps
  intro row hrow
  rw [vadd_length,
    tget_length m.entities d hE _ (hb0 row hrow),
    tget_length m.relations d hR _ (hb1 row hrow),
    tget_length m.entities d hE _ (hb2 row hrow)]
  simp

/-- Witness for C1 at a concrete model and batch. -/
theorem C1_transe_score_witness :
    ∃ lhs rhs : Mat,
      TransE.get_lhs (CFModelState.mk [[1], [2]] [[10]] [] [] []) [[0, 0, 1]]
        = some lhs ∧
      TransE.get_rhs (CFModelState.mk [[1], [2]] [[10]] [] [] []) [[0, 0, 1]]
        = some rhs ∧
      CFEuclideanBase.similarity_score lhs rhs false
        = some ([[0, 0, 1]].map (fun row =>
            [-sqDistVec
              (vadd (tget (CFModelState.mk [[1], [2]] [[10]] [] [] []).entities (row.getD 0 0))
                (tget (CFModelState.mk [[1], [2]] [[10]] [] [] []).relations (row.getD 1 0)))
              (tget (CFModelState.mk [[1], [2]] [[10]] [] [] []).entities (row.getD 2 0))])) :=
  C1_transe_score (CFModelState.mk [[1], [2]] [[10]] [] [] []) 1
    (by
      intro v hv
      simp at hv
      rcases hv with rfl | rfl <;> rfl)
    (by
      intro v hv
      simp at hv
      subst hv
      rfl)
    [[0, 0, 1]]
    (by
      intro row hrow
      simp at hrow
      subst hrow
      exact ⟨0, 0, 1, rfl, by decide, by decide, by decide⟩)

/-- C2: for every batch of (head, relation, tail) id triples within table
bounds, `MuREuclidean.get_lhs` is the elementwise product of the per-relation
transform vector with the head embedding, `MuREuclidean.get_rhs` is the tail
embedding plus the per-relation relation vector, and hence the MuR score is,
row by row, the negative squared Euclidean distance between
(transform ⊙ head) and (tail + relation). -/
theorem C2_mur_score (m : CFModelState) (d : ℕ)
    (hE : ∀ v ∈ m.entities, v.length = d) (hR : ∀ v ∈ m.relations, v.length = d)
    (hT : ∀ v ∈ m.transforms, v.length = d)
    (batch : List (List ℕ))
    (hb : ∀ row ∈ batch, ∃ h r t : ℕ, row = [h, r, t] ∧
      h < m.entities.length ∧ r < m.relations.length ∧
      r < m.transforms.length ∧ t < m.entities.length) :
    MuREuclidean.get_lhs m batch
      = some (batch.map (fun row =>
          vmul (tget m.transforms (row.getD 1 0)) (tget m.entities (row.getD 0 0)))) ∧
    MuREuclidean.get_rhs m batch
      = some (batch.map (fun row =>
          vadd (tget m.entities (row.getD 2 0)) (tget m.relations (row.getD 1 0)))) ∧
    CFEuclideanBase.similarity_score
      (batch.map (fun row =>
        vmul (tget m.transforms (row.getD 1 0)) (tget m.entities (row.getD 0 0))))
      (batch.map (fun row =>
        vadd (tget m.entities (row.getD 2 0)) (tget m.relations (row.getD 1 0))))
      false
      = some (batch.map (fun row =>
          [-sqDistVec
            (vmul (tget m.transforms (row.getD 1 0)) (tget m.entities (row.getD 0 0)))
            (vadd (tget m.entities (row.getD 2 0)) (tget m.relations (row.getD 1 0)))])) := by
  have hb0 : ∀ row ∈ batch, row.getD 0 0 < m.entities.length := by
    intro row hrow
    obtain ⟨h, r, t, rfl, hh, _, _, _⟩ := hb row hrow
    exact hh
  have hb1R : ∀ row ∈ batch, row.getD 1 0 < m.relations.length := by
    intro row hrow
    obtain ⟨h, r, t, rfl, _, hr, _, _⟩ := hb row hrow
    exact hr
  have hb1T : ∀ row ∈ batch, row.getD 1 0 < m.transforms.length := by
    intro row hrow
    obtain ⟨h, r, t, rfl, _, _, htr, _⟩ := hb row hrow
    exact htr
  have hb2 : ∀ row ∈ batch, row.getD 2 0 < m.entities.length := by
    intro row hrow
    obtain ⟨h, r, t, rfl, _, _, _, ht⟩ := hb row hrow
    exact ht
  refine ⟨?_, ?_, ?_⟩
  · exact lhs_pipeline_swap m.entities m.transforms 0 1 vmul batch
      (by
        intro row hrow
        obtain ⟨h, r, t, rfl, _⟩ := hb row hrow
        simp)
      (by
        intro row hrow
        obtain ⟨h, r, t, rfl, _⟩ := hb row hrow
        simp)
      hb0 hb1T
      (by
        intro row hrow
        rw [tget_length m.transforms d hT _ (hb1T row hrow),
          tget_length m.entities d hE _ (hb0 row hrow)])
  · have hpipe : MuREuclidean.get_rhs m batch
        = some (batch.map (fun row =>
            vadd (tget m.entities (row.getLastD 0)) (tget m.relations (row.getD 1 0)))) :=
      rhs_pipeline m.entities m.relations 1 vadd batch
        (by
          intro row hrow
          obtain ⟨h, r, t, rfl, _⟩ := hb row hrow
          simp)
        (by
          intro row hrow
          obtain ⟨h, r, t, rfl, _⟩ := hb row hrow
          simp)
        (by
          intro row hrow
          obtain ⟨h, r, t, rfl, _⟩ := hb row hrow
          simpa using hb2 _ hrow)
        hb1R
        (by
          intro row hrow
          obtain ⟨h, r, t, rfl, _⟩ := hb row hrow
          have h2 : List.getLastD [h, r, t] 0 = List.getD [h, r, t] 2 0 := by simp
          rw [h2, tget_length m.entities d hE _ (hb2 _ hrow),
            tget_length m.relations d hR _ (hb1R _ hrow)])
    rw [hpipe]
    congr 1
    apply List.map_congr_left
    intro row hrow
    obtain ⟨h, r, t, rfl, _⟩ := hb row hrow
    simp
  · apply score_false_maps
    intro row hrow
    rw [vmul_length, vadd_length,
      tget_length m.transforms d hT _ (hb1T row hrow),
      tget_length m.entities d hE _ (hb0 row hrow),
      tget_length m.entities d hE _ (hb2 row hrow),
      tget_length m.relations d hR _ (hb1R row hrow)]

/-- Witness for C2 at a concrete model and batch. -/
theorem C2_mur_score_witness :
    MuREuclidean.get_lhs (CFModelState.mk [[1], [2]] [[10]] [[3]] [] []) [[0, 0, 1]]
      = some ([[0, 0, 1]].map (fun row =>
          vmul (tget ([[3]] : Mat) (row.getD 1 0)) (tget ([[1], [2]] : Mat) (row.getD 0 0)))) ∧
    MuREuclidean.get_rhs (CFModelState.mk [[1], [2]] [[10]] [[3]] [] []) [[0, 0, 1]]
      = some ([[0, 0, 1]].map (fun row =>
          vadd (tget ([[1], [2]] : Mat) (row.getD 2 0)) (tget ([[10]] : Mat) (row.getD 1 0)))) ∧
    CFEuclideanBase.similarity_score
      ([[0, 0, 1]].map (fun row =>
        vmul (tget ([[3]] : Mat) (row.getD 1 0)) (tget ([[1], [2]] : Mat) (row.getD 0 0))))
      ([[0, 0, 1]].map (fun row =>
        vadd (tget ([[1], [2]] : Mat) (row.getD 2 0)) (tget ([[10]] : Mat) (row.getD 1 0))))
      false
      = some ([[0, 0, 1]].map (fun row =>
          [-sqDistVec
            (vmul (tget ([[3]] : Mat) (row.getD 1 0)) (tget ([[1], [2]] : Mat) (row.getD 0 0)))
            (vadd (tget ([[1], [2]] : Mat) (row.getD 2 0)) (tget ([[10]] : Mat) (row.getD 1 0)))])) :=
  C2_mur_score (CFModelState.mk [[1], [2]] [[10]] [[3]] [] []) 1
    (by
      intro v hv
      simp at hv
      rcases hv with rfl | rfl <;> rfl)
    (by
      intro v hv
      simp at hv
      subst hv
      rfl)
    (by
      intro v hv
      simp at hv
      subst hv
      rfl)
    [[0, 0, 1]]
    (by
      intro row hrow
      simp at hrow
      subst hrow
      exact ⟨0, 0, 1, rfl, by decide, by decide, by decide, by decide⟩)

/-- C3: for `UserAttentiveEuclidean.similarity_score`, the `all_items = True`
path on `lhs : B1 × dims` and `rhs : B1 × B2 × dims` agrees pointwise with the
`all_items = False` path: entry (i, j) of the batched result is the negative
squared Euclidean distance between `lhs[i]` and `rhs[i][j]`, which is exactly
what the `all_items = False` path returns on the pair (`lhs[i]`, `rhs[i][j]`). -/
theorem C3_user_attentive_paths_agree (lhs : Mat) (rhs : List Mat) (S : Mat)
    (hS : UserAttentiveEuclidean.similarity_score_all lhs rhs = some S)
    (i j : ℕ) (x : Vec) (ys : Mat) (y : Vec)
    (hx : lhs[i]? = some x) (hys : rhs[i]? = some ys) (hy : ys[j]? = some y) :
    ∃ row : Vec, S[i]? = some row ∧ row[j]? = some (-sqDistVec x y) ∧
      UserAttentiveEuclidean.similarity_score_single [x] [y]
        = some [[-sqDistVec x y]] := by
  rw [UserAttentiveEuclidean.similarity_score_all,
    euclidean_sq_distance_batched_all_pairs] at hS
  by_cases hg : (lhs.length == rhs.length
      && (List.zip lhs rhs).all (fun p => p.2.all (fun y => p.1.length == y.length))) = true
  · rw [if_pos hg] at hS
    simp only [Option.map_some'] at hS
    injection hS with hS
    subst hS
    have hlen : x.length = y.length := by
      have hzip : (List.zip lhs rhs)[i]? = some (x, ys) := by
        rw [List.zip, zipWith_idx, hx, hys]
        rfl
      have hmem : (x, ys) ∈ List.zip lhs rhs := List.getElem?_mem hzip
      have hall := (Bool.and_eq_true_iff.mp hg).2
      have hxs := (List.all_eq_true.mp hall) _ hmem
      have hymem : y ∈ ys := List.getElem?_mem hy
      have := (List.all_eq_true.mp hxs) _ hymem
      exact beq_iff_eq.mp this
    refine ⟨ys.map (fun y => -sqDistVec x y), ?_, ?_, ?_⟩
    · rw [matNeg, List.getElem?_map, zipWith_idx, hx, hys]
      simp [List.map_map]
    · rw [List.getElem?_map, hy]
      rfl
    · simp [UserAttentiveEuclidean.similarity_score_single, euclidean_sq_distance,
        sameShape, hlen, matNeg]
  · rw [if_neg hg] at hS
    simp at hS

/-- Witness for C3 at a concrete batch. -/
theorem C3_user_attentive_paths_agree_witness :
    ∃ row : Vec, ([[-1]] : Mat)[0]? = some row ∧
      row[0]? = some (-sqDistVec [1, 2] [1, 3]) ∧
      UserAttentiveEuclidean.similarity_score_single [[1, 2]] [[1, 3]]
        = some [[-sqDistVec [1, 2] [1, 3]]] :=
  C3_user_attentive_paths_agree [[1, 2]] [[[1, 3]]] [[-1]]
    (by norm_num [UserAttentiveEuclidean.similarity_score_all,
      euclidean_sq_distance_batched_all_pairs, sqDistVec, matNeg])
    0 0 [1, 2] [[1, 3]] [1, 3] (by simp) (by simp) (by simp)

theorem sameShape_comm (a : Mat) : ∀ b : Mat, sameShape a b = sameShape b a := by
  induction a with
  | nil => intro b; cases b <;> rfl
  | cons x xs ih =>
    intro b
    cases b with
    | nil => rfl
    | cons y ys =>
      show (_ && _) = (_ && _)
      rw [ih ys, Bool.beq_comm]

/-- C8: for `SimpleFactor.similarity_score`, the `all_items = True` path
(`matmul(lhs, transpose(rhs))`) agrees pointwise with the
`all_items = False` path: entry (i, j) of the matrix product is the dot
product of `lhs[i]` with `rhs[j]`, which is exactly what the
`all_items = False` path returns on the pair (`lhs[i]`, `rhs[j]`). -/
theorem C8_simplefactor_paths_agree (lhs rhs S : Mat)
    (hS : SimpleFactor.similarity_score lhs rhs true = some S)
    (i j : ℕ) (x y : Vec)
    (hx : lhs[i]? = some x) (hy : rhs[j]? = some y) :
    ∃ row : Vec, S[i]? = some row ∧ row[j]? = some (dot x y) ∧
      SimpleFactor.similarity_score [x] [y] false = some [[dot x y]] := by
  rw [SimpleFactor.similarity_score] at hS
  split at hS
  · split at hS
    next hg =>
      injection hS with hS
      subst hS
      have hlen : x.length = y.length := by
        have hxmem : x ∈ lhs := List.getElem?_mem hx
        have hymem : y ∈ rhs := List.getElem?_mem hy
        have hxs := (List.all_eq_true.mp hg) _ hxmem
        exact beq_iff_eq.mp ((List.all_eq_true.mp hxs) _ hymem)
      refine ⟨rhs.map (fun y => dot x y), ?_, ?_, ?_⟩
      · rw [List.getElem?_map, hx]
        rfl
      · rw [List.getElem?_map, hy]
        rfl
      · simp [SimpleFactor.similarity_score, sameShape, hlen]
    next => simp at hS
  · next h => simp at h

/-- Witness for C8 at a concrete batch. -/
theorem C8_simplefactor_paths_agree_witness :
    ∃ row : Vec, ([[11]] : Mat)[0]? = some row ∧
      row[0]? = some (dot [1, 2] [3, 4]) ∧
      SimpleFactor.similarity_score [[1, 2]] [[3, 4]] false
        = some [[dot [1, 2] [3, 4]]] :=
  C8_simplefactor_paths_agree [[1, 2]] [[3, 4]] [[11]]
    (by norm_num [SimpleFactor.similarity_score, dot])
    0 0 [1, 2] [3, 4] (by simp) (by simp)

/-- C9: with `all_items = False`, each row entry of
`CFEuclideanBase.similarity_score` is non-positive, and it is zero exactly
when the corresponding `lhs` and `rhs` rows are equal, being the negation of
a squared Euclidean distance. -/
theorem C9_score_nonpos (lhs rhs S : Mat)
    (hS : CFEuclideanBase.similarity_score lhs rhs false = some S)
    (i : ℕ) (x y : Vec) (hx : lhs[i]? = some x) (hy : rhs[i]? = some y) :
    S[i]? = some [-sqDistVec x y] ∧ -sqDistVec x y ≤ 0 ∧
      (-sqDistVec x y = 0 ↔ x = y) := by
  rw [CFEuclideanBase.similarity_score, euclidean_sq_distance] at hS
  simp only [Bool.false_eq_true, if_false] at hS
  split at hS
  next hss =>
    simp only [Option.map_some'] at hS
    injection hS with hS
    subst hS
    have hlen : x.length = y.length :=
      forall₂_idx ((sameShape_iff lhs rhs).mp hss) i x y hx hy
    refine ⟨?_, neg_nonpos.mpr (sqDistVec_nonneg x y), ?_⟩
    · rw [matNeg, List.getElem?_map, zipWith_idx, hx, hy]
      rfl
    · rw [neg_eq_zero]
      exact sqDistVec_eq_zero_iff x y hlen
  next => simp at hS

/-- Witness for C9 at a concrete batch. -/
theorem C9_score_nonpos_witness :
    ([[-1]] : Mat)[0]? = some [-sqDistVec [1, 2] [1, 3]] ∧
      -sqDistVec [1, 2] [1, 3] ≤ 0 ∧
      (-sqDistVec [1, 2] [1, 3] = 0 ↔ ([1, 2] : Vec) = [1, 3]) :=
  C9_score_nonpos [[1, 2]] [[1, 3]] [[-1]]
    (by norm_num [CFEuclideanBase.similarity_score, euclidean_sq_distance,
      sameShape, sqDistVec, matNeg])
    0 [1, 2] [1, 3] (by simp) (by simp)

/-- C10: with `all_items = False`, both `CFEuclideanBase.similarity_score`
and `SimpleFactor.similarity_score` are symmetric in their two tensor
arguments. -/
theorem C10_score_symm (lhs rhs : Mat) :
    CFEuclideanBase.similarity_score lhs rhs false
      = CFEuclideanBase.similarity_score rhs lhs false ∧
    SimpleFactor.similarity_score lhs rhs false
      = SimpleFactor.similarity_score rhs lhs false := by
  constructor
  · by_cases hss : sameShape rhs lhs = true
    · simp only [CFEuclideanBase.similarity_score, euclidean_sq_distance,
        Bool.false_eq_true, if_false, sameShape_comm lhs rhs, hss, if_true]
      rw [List.zipWith_comm]
      have hfun : (fun (y x : Vec) => [sqDistVec x y])
          = fun (y x : Vec) => [sqDistVec y x] := by
        funext y x
        rw [sqDistVec_comm]
      rw [hfun]
    · simp only [CFEuclideanBase.similarity_score, euclidean_sq_distance,
        Bool.false_eq_true, if_false, sameShape_comm lhs rhs, hss, if_false]
  · by_cases hss : sameShape rhs lhs = true
    · simp only [SimpleFactor.similarity_score, Bool.false_eq_true, if_false,
        sameShape_comm lhs rhs, hss, if_true]
      rw [List.zipWith_comm]
      have hfun : (fun (y x : Vec) => [dot x y])
          = fun (y x : Vec) => [dot y x] := by
        funext y x
        rw [dot_comm]
      rw [hfun]
    · simp only [SimpleFactor.similarity_score, Bool.false_eq_true, if_false,
        sameShape_comm lhs rhs, hss, if_false]

/-- C4 counterexample: `MuREuclidean` is a Euclidean model whose `get_rhs`
is not the entity embedding at the last column — it adds the per-relation
vector to the tail embedding.  At entity table `[[0], [1]]`, relation table
`[[5], [7]]` and input row `[0, 1, 1]`, `MuREuclidean.get_rhs` yields
`[[8]]` (tail `[1]` plus relation `[7]`) while the entity embedding at the
last column (`CFEuclideanBase.get_rhs`) is `[[1]]`. -/
theorem C4_counterexample :
    MuREuclidean.get_rhs (CFModelState.mk [[0], [1]] [[5], [7]] [] [] []) [[0, 1, 1]]
      = some [[8]] ∧
    CFEuclideanBase.get_rhs (CFModelState.mk [[0], [1]] [[5], [7]] [] [] []) [[0, 1, 1]]
      = some [[1]] ∧
    MuREuclidean.get_rhs (CFModelState.mk [[0], [1]] [[5], [7]] [] [] []) [[0, 1, 1]]
      ≠ CFEuclideanBase.get_rhs (CFModelState.mk [[0], [1]] [[5], [7]] [] [] [])
          [[0, 1, 1]] := by
  refine ⟨?_, ?_, ?_⟩
  · norm_num [MuREuclidean.get_rhs, colLast, colNth, embed, batchOp, sameShape, vadd]
  · norm_num [CFEuclideanBase.get_rhs, colLast, embed]
  · norm_num [MuREuclidean.get_rhs, CFEuclideanBase.get_rhs, colLast, colNth,
      embed, batchOp, sameShape, vadd]

/-- C4 (amended): for every Euclidean model that does not override
`CFEuclideanBase.get_rhs` — `SimpleFactor`, `TransE` and `RotRefEuclidean`,
but not `MuREuclidean` — `get_rhs` returns the entity embedding looked up at
the last column of each input row, regardless of how many columns the input
has. -/
theorem C4_get_rhs_last_column (m : CFModelState) (input : List (List ℕ))
    (hne : ∀ row ∈ input, row ≠ [])
    (hb : ∀ row ∈ input, row.getLastD 0 < m.entities.length) :
    SimpleFactor.get_rhs m input
        = some (input.map (fun row => tget m.entities (row.getLastD 0))) ∧
    TransE.get_rhs m input
        = some (input.map (fun row => tget m.entities (row.getLastD 0))) ∧
    RotRefEuclidean.get_rhs m input
        = some (input.map (fun row => tget m.entities (row.getLastD 0))) := by
  have h := base_rhs_eq m input hne hb
  exact ⟨h, h, h⟩

/-- Witness for the amended C4 at a concrete model and a two-column input. -/
theorem C4_get_rhs_last_column_witness :
    SimpleFactor.get_rhs (CFModelState.mk [[1], [2]] [] [] [] []) [[1, 0], [0, 1]]
        = some ([[1, 0], [0, 1]].map (fun row =>
            tget (CFModelState.mk [[1], [2]] [] [] [] []).entities (row.getLastD 0))) ∧
    TransE.get_rhs (CFModelState.mk [[1], [2]] [] [] [] []) [[1, 0], [0, 1]]
        = some ([[1, 0], [0, 1]].map (fun row =>
            tget (CFModelState.mk [[1], [2]] [] [] [] []).entities (row.getLastD 0))) ∧
    RotRefEuclidean.get_rhs (CFModelState.mk [[1], [2]] [] [] [] []) [[1, 0], [0, 1]]
        = some ([[1, 0], [0, 1]].map (fun row =>
            tget (CFModelState.mk [[1], [2]] [] [] [] []).entities (row.getLastD 0))) :=
  C4_get_rhs_last_column (CFModelState.mk [[1], [2]] [] [] [] []) [[1, 0], [0, 1]]
    (by decide) (by decide)

/-- C5: every scoring operation of every model class (`get_lhs`, `get_rhs`,
`similarity_score`, in their state-threaded form where each attribute access
is an explicit read) returns the same value as its pure counterpart and
leaves the model state — the entity, relation, transform and
rotation/reflection tables — unchanged. -/
theorem C5_scoring_ops_pure (m : CFModelState) (input : List (List ℕ))
    (lhs rhs : Mat) (rhs3 : List Mat) (b : Bool) :
    (CFEuclideanBase.get_rhsM input).run m = (CFEuclideanBase.get_rhs m input, m) ∧
    (CFEuclideanBase.similarity_scoreM lhs rhs b).run m
      = (CFEuclideanBase.similarity_score lhs rhs b, m) ∧
    (SimpleFactor.get_lhsM input).run m = (SimpleFactor.get_lhs m input, m) ∧
    (SimpleFactor.similarity_scoreM lhs rhs b).run m
      = (SimpleFactor.similarity_score lhs rhs b, m) ∧
    (TransE.get_lhsM input).run m = (TransE.get_lhs m input, m) ∧
    (MuREuclidean.get_lhsM input).run m = (MuREuclidean.get_lhs m input, m) ∧
    (MuREuclidean.get_rhsM input).run m = (MuREuclidean.get_rhs m input, m) ∧
    (RotRefBase.get_headsM input).run m = (RotRefBase.get_heads m input, m) ∧
    (RotRefEuclidean.get_lhsM input).run m = (RotRefEuclidean.get_lhs m input, m) ∧
    (UserAttentiveEuclidean.similarity_score_allM lhs rhs3).run m
      = (UserAttentiveEuclidean.similarity_score_all lhs rhs3, m) ∧
    (UserAttentiveEuclidean.similarity_score_singleM lhs rhs).run m
      = (UserAttentiveEuclidean.similarity_score_single lhs rhs, m) :=
  ⟨rfl, rfl, rfl, rfl, rfl, rfl, rfl, rfl, rfl, rfl, rfl⟩

theorem get_rhs_isSome_iff (m : CFModelState) :
    ∀ input : List (List ℕ),
      (CFEuclideanBase.get_rhs m input).isSome = true ↔
        ∀ row ∈ input, ∃ t, row.getLast? = some t ∧ t < m.entities.length := by
  intro input
  induction input with
  | nil => simp [CFEuclideanBase.get_rhs, colLast, embed]
  | cons row rows ih =>
    cases hz : row.getLast? with
    | none =>
      simp [CFEuclideanBase.get_rhs, colLast, hz, List.forall_mem_cons]
    | some z =>
      cases hc : colLast rows with
      | none =>
        have hrows : CFEuclideanBase.get_rhs m rows = none := by
          simp [CFEuclideanBase.get_rhs, hc]
        have hnone : ¬ ∀ r ∈ rows, ∃ t, r.getLast? = some t ∧ t < m.entities.length := by
          rw [← ih, hrows]
          simp
        have hcur : CFEuclideanBase.get_rhs m (row :: rows) = none := by
          simp [CFEuclideanBase.get_rhs, colLast, hz, hc]
        rw [hcur]
        simp [List.forall_mem_cons, hnone]
      | some zs =>
        have hrows : CFEuclideanBase.get_rhs m rows = embed m.entities zs := by
          simp [CFEuclideanBase.get_rhs, hc]
        have hcur : CFEuclideanBase.get_rhs m (row :: rows)
            = (m.entities[z]?).bind
                (fun v => (embed m.entities zs).map (fun vs => v :: vs)) := by
          simp [CFEuclideanBase.get_rhs, colLast, hz, hc, embed]
        rw [hrows] at ih
        rw [hcur]
        cases hv : m.entities[z]? with
        | none =>
          have hge : m.entities.length ≤ z := List.getElem?_eq_none_iff.mp hv
          simp [List.forall_mem_cons, hz]
          intro hlt
          omega
        | some v =>
          have hlt : z < m.entities.length :=
            (getElem?_isSome_iff _ _).mp (by simp [hv])
          simp [List.forall_mem_cons, hz, hlt, ← ih]

theorem bind_isSome_left {α β : Type} (x : Option α) (f : α → Option β)
    (h : (x.bind f).isSome = true) : x.isSome = true := by
  cases x with
  | none => simp at h
  | some a => rfl

theorem colNth_isSome_iff (j : ℕ) :
    ∀ input : List (List ℕ),
      (colNth j input).isSome = true ↔ ∀ row ∈ input, j < row.length := by
  intro input
  induction input with
  | nil => simp [colNth]
  | cons row rows ih =>
    cases hv : row[j]? with
    | none =>
      have hge : row.length ≤ j := List.getElem?_eq_none_iff.mp hv
      simp [colNth, hv, List.forall_mem_cons]
      intro hlt
      omega
    | some x =>
      have hlt : j < row.length := (getElem?_isSome_iff _ _).mp (by simp [hv])
      simp [colNth, hv, List.forall_mem_cons, ih, hlt]

theorem colLast_isSome_iff :
    ∀ input : List (List ℕ),
      (colLast input).isSome = true ↔ ∀ row ∈ input, row ≠ [] := by
  intro input
  induction input with
  | nil => simp [colLast]
  | cons row rows ih =>
    cases hv : row.getLast? with
    | none =>
      have hnil : row = [] := by
        by_contra hne
        obtain ⟨z, hz⟩ := Option.isSome_iff_exists.mp (List.getLast?_isSome.mpr hne)
        rw [hv] at hz
        exact Option.noConfusion hz
      simp [colLast, hv, List.forall_mem_cons, hnil]
    | some z =>
      have hne : row ≠ [] := List.getLast?_isSome.mp (by simp [hv])
      simp [colLast, hv, List.forall_mem_cons, ih, hne]

theorem batchOp_isSome_iff (op : Vec → Vec → Vec) (a b : Mat) :
    (batchOp op a b).isSome = true ↔ sameShape a b = true := by
  by_cases hss : sameShape a b = true <;> simp [batchOp, hss]

theorem sameShape_map_iff {β : Type} (l : List β) (f g : β → Vec) :
    sameShape (l.map f) (l.map g) = true ↔
      ∀ x ∈ l, (f x).length = (g x).length := by
  rw [sameShape_iff, List.forall₂_map_left_iff, List.forall₂_map_right_iff,
    List.forall₂_same]

theorem getD_eq_of_getElem? {α : Type} (row : List α) (j : ℕ) (i d : α)
    (h : row[j]? = some i) : row.getD j d = i := by
  rw [List.getD_eq_getElem?_getD, h]
  rfl

theorem getElem?_getD_self {α : Type} (row : List α) (j : ℕ) (d : α)
    (h : j < row.length) : row[j]? = some (row.getD j d) := by
  rw [List.getD_eq_getElem?_getD, List.getElem?_eq_getElem h]
  rfl

theorem lhs_pipeline_isSome_iff (T1 T2 : Mat) (j0 j1 : ℕ) (op : Vec → Vec → Vec)
    (input : List (List ℕ)) :
    ((colNth j0 input).bind (fun ids0 =>
      (embed T1 ids0).bind (fun a =>
      (colNth j1 input).bind (fun ids1 =>
      (embed T2 ids1).bind (fun b =>
      batchOp op a b))))).isSome = true ↔
    ((∀ row ∈ input, ∃ i, row[j0]? = some i ∧ i < T1.length) ∧
     (∀ row ∈ input, ∃ i, row[j1]? = some i ∧ i < T2.length) ∧
     (∀ row ∈ input,
       (tget T1 (row.getD j0 0)).length = (tget T2 (row.getD j1 0)).length)) := by
  constructor
  · intro hsome
    have hc0 : (colNth j0 input).isSome = true := bind_isSome_left _ _ hsome
    have hrows0 := (colNth_isSome_iff j0 input).mp hc0
    rw [colNth_eq_map j0 input hrows0, Option.some_bind] at hsome
    have he1 : (embed T1 (input.map (fun row => row.getD j0 0))).isSome = true :=
      bind_isSome_left _ _ hsome
    have hb0 := (embed_isSome_iff T1 _).mp he1
    rw [embed_eq_map T1 _ hb0, Option.some_bind] at hsome
    have hc1 : (colNth j1 input).isSome = true := bind_isSome_left _ _ hsome
    have hrows1 := (colNth_isSome_iff j1 input).mp hc1
    rw [colNth_eq_map j1 input hrows1, Option.some_bind] at hsome
    have he2 : (embed T2 (input.map (fun row => row.getD j1 0))).isSome = true :=
      bind_isSome_left _ _ hsome
    have hb1 := (embed_isSome_iff T2 _).mp he2
    rw [embed_eq_map T2 _ hb1, Option.some_bind, List.map_map, List.map_map] at hsome
    have hlen := (sameShape_map_iff input _ _).mp ((batchOp_isSome_iff op _ _).mp hsome)
    refine ⟨?_, ?_, ?_⟩
    · intro row hrow
      exact ⟨row.getD j0 0, getElem?_getD_self row j0 0 (hrows0 row hrow),
        hb0 _ (List.mem_map_of_mem _ hrow)⟩
    · intro row hrow
      exact ⟨row.getD j1 0, getElem?_getD_self row j1 0 (hrows1 row hrow),
        hb1 _ (List.mem_map_of_mem _ hrow)⟩
    · intro row hrow
      simpa using hlen row hrow
  · rintro ⟨hA, hB, hC⟩
    have hrows0 : ∀ row ∈ input, j0 < row.length := by
      intro row hrow
      obtain ⟨i, hi, _⟩ := hA row hrow
      exact (getElem?_isSome_iff row j0).mp (by simp [hi])
    have hrows1 : ∀ row ∈ input, j1 < row.length := by
      intro row hrow
      obtain ⟨i, hi, _⟩ := hB row hrow
      exact (getElem?_isSome_iff row j1).mp (by simp [hi])
    have hb0 : ∀ row ∈ input, row.getD j0 0 < T1.length := by
      intro row hrow
      obtain ⟨i, hi, hlt⟩ := hA row hrow
      rw [getD_eq_of_getElem? row j0 i 0 hi]
      exact hlt
    have hb1 : ∀ row ∈ input, row.getD j1 0 < T2.length := by
      intro row hrow
      obtain ⟨i, hi, hlt⟩ := hB row hrow
      rw [getD_eq_of_getElem? row j1 i 0 hi]
      exact hlt
    rw [lhs_pipeline T1 T2 j0 j1 op input hrows0 hrows1 hb0 hb1 hC]
    rfl

theorem getLastD_eq_of_getLast? (row : List ℕ) (t : ℕ)
    (h : row.getLast? = some t) : row.getLastD 0 = t := by
  rw [List.getLastD_eq_getLast?, h]
  rfl

theorem getLast?_getLastD_self (row : List ℕ) (h : row ≠ []) :
    row.getLast? = some (row.getLastD 0) := by
  obtain ⟨z, hz⟩ := Option.isSome_iff_exists.mp (List.getLast?_isSome.mpr h)
  rw [hz, getLastD_eq_of_getLast? row z hz]

theorem lhs_pipeline_swap_isSome_iff (T1 T2 : Mat) (j0 j1 : ℕ) (op : Vec → Vec → Vec)
    (input : List (List ℕ)) :
    ((colNth j0 input).bind (fun ids0 =>
      (embed T1 ids0).bind (fun a =>
      (colNth j1 input).bind (fun ids1 =>
      (embed T2 ids1).bind (fun b =>
      batchOp op b a))))).isSome = true ↔
    ((∀ row ∈ input, ∃ i, row[j0]? = some i ∧ i < T1.length) ∧
     (∀ row ∈ input, ∃ i, row[j1]? = some i ∧ i < T2.length) ∧
     (∀ row ∈ input,
       (tget T2 (row.getD j1 0)).length = (tget T1 (row.getD j0 0)).length)) := by
  constructor
  · intro hsome
    have hc0 : (colNth j0 input).isSome = true := bind_isSome_left _ _ hsome
    have hrows0 := (colNth_isSome_iff j0 input).mp hc0
    rw [colNth_eq_map j0 input hrows0, Option.some_bind] at hsome
    have he1 : (embed T1 (input.map (fun row => row.getD j0 0))).isSome = true :=
      bind_isSome_left _ _ hsome
    have hb0 := (embed_isSome_iff T1 _).mp he1
    rw [embed_eq_map T1 _ hb0, Option.some_bind] at hsome
    have hc1 : (colNth j1 input).isSome = true := bind_isSome_left _ _ hsome
    have hrows1 := (colNth_isSome_iff j1 input).mp hc1
    rw [colNth_eq_map j1 input hrows1, Option.some_bind] at hsome
    have he2 : (embed T2 (input.map (fun row => row.getD j1 0))).isSome = true :=
      bind_isSome_left _ _ hsome
    have hb1 := (embed_isSome_iff T2 _).mp he2
    rw [embed_eq_map T2 _ hb1, Option.some_bind, List.map_map, List.map_map] at hsome
    have hlen := (sameShape_map_iff input _ _).mp ((batchOp_isSome_iff op _ _).mp hsome)
    refine ⟨?_, ?_, ?_⟩
    · intro row hrow
      exact ⟨row.getD j0 0, getElem?_getD_self row j0 0 (hrows0 row hrow),
        hb0 _ (List.mem_map_of_mem _ hrow)⟩
    · intro row hrow
      exact ⟨row.getD j1 0, getElem?_getD_self row j1 0 (hrows1 row hrow),
        hb1 _ (List.mem_map_of_mem _ hrow)⟩
    · intro row hrow
      simpa using hlen row hrow
  · rintro ⟨hA, hB, hC⟩
    have hrows0 : ∀ row ∈ input, j0 < row.length := by
      intro row hrow
      obtain ⟨i, hi, _⟩ := hA row hrow
      exact (getElem?_isSome_iff row j0).mp (by simp [hi])
    have hrows1 : ∀ row ∈ input, j1 < row.length := by
      intro row hrow
      obtain ⟨i, hi, _⟩ := hB row hrow
      exact (getElem?_isSome_iff row j1).mp (by simp [hi])
    have hb0 : ∀ row ∈ input, row.getD j0 0 < T1.length := by
      intro row hrow
      obtain ⟨i, hi, hlt⟩ := hA row hrow
      rw [getD_eq_of_getElem? row j0 i 0 hi]
      exact hlt
    have hb1 : ∀ row ∈ input, row.getD j1 0 < T2.length := by
      intro row hrow
      obtain ⟨i, hi, hlt⟩ := hB row hrow
      rw [getD_eq_of_getElem? row j1 i 0 hi]
      exact hlt
    rw [lhs_pipeline_swap T1 T2 j0 j1 op input hrows0 hrows1 hb0 hb1 hC]
    rfl

theorem rhs_pipeline_isSome_iff (T1 T2 : Mat) (j1 : ℕ) (op : Vec → Vec → Vec)
    (input : List (List ℕ)) :
    ((colLast input).bind (fun ids0 =>
      (embed T1 ids0).bind (fun a =>
      (colNth j1 input).bind (fun ids1 =>
      (embed T2 ids1).bind (fun b =>
      batchOp op a b))))).isSome = true ↔
    ((∀ row ∈ input, ∃ t, row.getLast? = some t ∧ t < T1.length) ∧
     (∀ row ∈ input, ∃ i, row[j1]? = some i ∧ i < T2.length) ∧
     (∀ row ∈ input,
       (tget T1 (row.getLastD 0)).length = (tget T2 (row.getD j1 0)).length)) := by
  constructor
  · intro hsome
    have hc0 : (colLast input).isSome = true := bind_isSome_left _ _ hsome
    have hne := (colLast_isSome_iff input).mp hc0
    rw [colLast_eq_map input hne, Option.some_bind] at hsome
    have he1 : (embed T1 (input.map (fun row => row.getLastD 0))).isSome = true :=
      bind_isSome_left _ _ hsome
    have hb0 := (embed_isSome_iff T1 _).mp he1
    rw [embed_eq_map T1 _ hb0, Option.some_bind] at hsome
    have hc1 : (colNth j1 input).isSome = true := bind_isSome_left _ _ hsome
    have hrows1 := (colNth_isSome_iff j1 input).mp hc1
    rw [colNth_eq_map j1 input hrows1, Option.some_bind] at hsome
    have he2 : (embed T2 (input.map (fun row => row.getD j1 0))).isSome = true :=
      bind_isSome_left _ _ hsome
    have hb1 := (embed_isSome_iff T2 _).mp he2
    rw [embed_eq_map T2 _ hb1, Option.some_bind, List.map_map, List.map_map] at hsome
    have hlen := (sameShape_map_iff input _ _).mp ((batchOp_isSome_iff op _ _).mp hsome)
    refine ⟨?_, ?_, ?_⟩
    · intro row hrow
      exact ⟨row.getLastD 0, getLast?_getLastD_self row (hne row hrow),
        hb0 _ (List.mem_map_of_mem _ hrow)⟩
    · intro row hrow
      exact ⟨row.getD j1 0, getElem?_getD_self row j1 0 (hrows1 row hrow),
        hb1 _ (List.mem_map_of_mem _ hrow)⟩
    · intro row hrow
      simpa using hlen row hrow
  · rintro ⟨hA, hB, hC⟩
    have hne : ∀ row ∈ input, row ≠ [] := by
      intro row hrow
      obtain ⟨t, ht, _⟩ := hA row hrow
      exact List.getLast?_isSome.mp (by simp [ht])
    have hrows1 : ∀ row ∈ input, j1 < row.length := by
      intro row hrow
      obtain ⟨i, hi, _⟩ := hB row hrow
      exact (getElem?_isSome_iff row j1).mp (by simp [hi])
    have hb0 : ∀ row ∈ input, row.getLastD 0 < T1.length := by
      intro row hrow
      obtain ⟨t, ht, hlt⟩ := hA row hrow
      rw [getLastD_eq_of_getLast? row t ht]
      exact hlt
    have hb1 : ∀ row ∈ input, row.getD j1 0 < T2.length := by
      intro row hrow
      obtain ⟨i, hi, hlt⟩ := hB row hrow
      rw [getD_eq_of_getElem? row j1 i 0 hi]
      exact hlt
    rw [rhs_pipeline T1 T2 j1 op input hne hrows1 hb0 hb1 hC]
    rfl

theorem get_heads_eq_map (m : CFModelState) (input : List (List ℕ))
    (h0 : ∀ row ∈ input, 0 < row.length) (h1 : ∀ row ∈ input, 1 < row.length)
    (hbE : ∀ row ∈ input, row.getD 0 0 < m.entities.length)
    (hbRot : ∀ row ∈ input, row.getD 1 0 < m.rotations.length)
    (hbRefl : ∀ row ∈ input, row.getD 1 0 < m.reflections.length)
    (hlen1 : ∀ row ∈ input,
      (tget m.rotations (row.getD 1 0)).length = (tget m.entities (row.getD 0 0)).length)
    (hlen2 : ∀ row ∈ input,
      (tget m.reflections (row.getD 1 0)).length
        = (vmul (tget m.rotations (row.getD 1 0)) (tget m.entities (row.getD 0 0))).length) :
    RotRefBase.get_heads m input
      = some (input.map (fun row =>
          vmul (tget m.reflections (row.getD 1 0))
            (vmul (tget m.rotations (row.getD 1 0)) (tget m.entities (row.getD 0 0))))) := by
  rw [RotRefBase.get_heads, colNth_eq_map 0 input h0, Option.some_bind,
    embed_eq_map m.entities _ (by
      intro i hi
      obtain ⟨row, hrow, rfl⟩ := List.mem_map.mp hi
      exact hbE row hrow),
    Option.some_bind, colNth_eq_map 1 input h1, Option.some_bind,
    embed_eq_map m.rotations _ (by
      intro i hi
      obtain ⟨row, hrow, rfl⟩ := List.mem_map.mp hi
      exact hbRot row hrow),
    Option.some_bind,
    embed_eq_map m.reflections _ (by
      intro i hi
      obtain ⟨row, hrow, rfl⟩ := List.mem_map.mp hi
      exact hbRefl row hrow),
    Option.some_bind, List.map_map, List.map_map, List.map_map,
    batchOp_map vmul input _ _ (by
      intro row hrow
      simpa using hlen1 row hrow),
    Option.some_bind,
    batchOp_map vmul input _ _ (by
      intro row hrow
      simpa using hlen2 row hrow)]
  simp

theorem get_heads_isSome_iff (m : CFModelState) (input : List (List ℕ)) :
    (RotRefBase.get_heads m input).isSome = true ↔
      ((∀ row ∈ input, ∃ i, row[0]? = some i ∧ i < m.entities.length) ∧
       (∀ row ∈ input, ∃ i, row[1]? = some i ∧
         i < m.rotations.length ∧ i < m.reflections.length) ∧
       (∀ row ∈ input,
         (tget m.rotations (row.getD 1 0)).length
           = (tget m.entities (row.getD 0 0)).length) ∧
       (∀ row ∈ input,
         (tget m.reflections (row.getD 1 0)).length
           = (vmul (tget m.rotations (row.getD 1 0))
               (tget m.entities (row.getD 0 0))).length)) := by
  constructor
  · intro hsome
    rw [RotRefBase.get_heads] at hsome
    have hc0 : (colNth 0 input).isSome = true := bind_isSome_left _ _ hsome
    have hrows0 := (colNth_isSome_iff 0 input).mp hc0
    rw [colNth_eq_map 0 input hrows0, Option.some_bind] at hsome
    have he1 : (embed m.entities (input.map (fun row => row.getD 0 0))).isSome = true :=
      bind_isSome_left _ _ hsome
    have hbE := (embed_isSome_iff m.entities _).mp he1
    rw [embed_eq_map m.entities _ hbE, Option.some_bind] at hsome
    have hc1 : (colNth 1 input).isSome = true := bind_isSome_left _ _ hsome
    have hrows1 := (colNth_isSome_iff 1 input).mp hc1
    rw [colNth_eq_map 1 input hrows1, Option.some_bind] at hsome
    have he2 : (embed m.rotations (input.map (fun row => row.getD 1 0))).isSome = true :=
      bind_isSome_left _ _ hsome
    have hbRot := (embed_isSome_iff m.rotations _).mp he2
    rw [embed_eq_map m.rotations _ hbRot, Option.some_bind] at hsome
    have he3 : (embed m.reflections (input.map (fun row => row.getD 1 0))).isSome = true :=
      bind_isSome_left _ _ hsome
    have hbRefl := (embed_isSome_iff m.reflections _).mp he3
    rw [embed_eq_map m.reflections _ hbRefl, Option.some_bind,
      List.map_map, List.map_map, List.map_map] at hsome
    have hb1 : (batchOp vmul
        (input.map (tget m.rotations ∘ fun row => row.getD 1 0))
        (input.map (tget m.entities ∘ fun row => row.getD 0 0))).isSome = true :=
      bind_isSome_left _ _ hsome
    have hlen1 := (sameShape_map_iff input _ _).mp ((batchOp_isSome_iff vmul _ _).mp hb1)
    rw [batchOp_map vmul input _ _ hlen1, Option.some_bind] at hsome
    have hlen2 := (sameShape_map_iff input _ _).mp ((batchOp_isSome_iff vmul _ _).mp hsome)
    refine ⟨?_, ?_, ?_, ?_⟩
    · intro row hrow
      exact ⟨row.getD 0 0, getElem?_getD_self row 0 0 (hrows0 row hrow),
        hbE _ (List.mem_map_of_mem _ hrow)⟩
    · intro row hrow
      exact ⟨row.getD 1 0, getElem?_getD_self row 1 0 (hrows1 row hrow),
        hbRot _ (List.mem_map_of_mem _ hrow), hbRefl _ (List.mem_map_of_mem _ hrow)⟩
    · intro row hrow
      simpa using hlen1 row hrow
    · intro row hrow
      simpa using hlen2 row hrow
  · rintro ⟨hA, hB, hC, hD⟩
    have hrows0 : ∀ row ∈ input, 0 < row.length := by
      intro row hrow
      obtain ⟨i, hi, _⟩ := hA row hrow
      exact (getElem?_isSome_iff row 0).mp (by simp [hi])
    have hrows1 : ∀ row ∈ input, 1 < row.length := by
      intro row hrow
      obtain ⟨i, hi, _⟩ := hB row hrow
      exact (getElem?_isSome_iff row 1).mp (by simp [hi])
    have hbE : ∀ row ∈ input, row.getD 0 0 < m.entities.length := by
      intro row hrow
      obtain ⟨i, hi, hlt⟩ := hA row hrow
      rw [getD_eq_of_getElem? row 0 i 0 hi]
      exact hlt
    have hbRot : ∀ row ∈ input, row.getD 1 0 < m.rotations.length := by
      intro row hrow
      obtain ⟨i, hi, hlt, _⟩ := hB row hrow
      rw [getD_eq_of_getElem? row 1 i 0 hi]
      exact hlt
    have hbRefl : ∀ row ∈ input, row.getD 1 0 < m.reflections.length := by
      intro row hrow
      obtain ⟨i, hi, _, hlt⟩ := hB row hrow
      rw [getD_eq_of_getElem? row 1 i 0 hi]
      exact hlt
    rw [get_heads_eq_map m input hrows0 hrows1 hbE hbRot hbRefl hC hD]
    rfl

theorem rotref_lhs_eq_map (m : CFModelState) (input : List (List ℕ))
    (h0 : ∀ row ∈ input, 0 < row.length) (h1 : ∀ row ∈ input, 1 < row.length)
    (hbE : ∀ row ∈ input, row.getD 0 0 < m.entities.length)
    (hbRot : ∀ row ∈ input, row.getD 1 0 < m.rotations.length)
    (hbRefl : ∀ row ∈ input, row.getD 1 0 < m.reflections.length)
    (hlen1 : ∀ row ∈ input,
      (tget m.rotations (row.getD 1 0)).length = (tget m.entities (row.getD 0 0)).length)
    (hlen2 : ∀ row ∈ input,
      (tget m.reflections (row.getD 1 0)).length
        = (vmul (tget m.rotations (row.getD 1 0)) (tget m.entities (row.getD 0 0))).length)
    (hbR : ∀ row ∈ input, row.getD 1 0 < m.relations.length)
    (hlen3 : ∀ row ∈ input,
      (vmul (tget m.reflections (row.getD 1 0))
        (vmul (tget m.rotations (row.getD 1 0)) (tget m.entities (row.getD 0 0)))).length
        = (tget m.relations (row.getD 1 0)).length) :
    RotRefEuclidean.get_lhs m input
      = some (input.map (fun row =>
          vadd (vmul (tget m.reflections (row.getD 1 0))
              (vmul (tget m.rotations (row.getD 1 0)) (tget m.entities (row.getD 0 0))))
            (tget m.relations (row.getD 1 0)))) := by
  rw [RotRefEuclidean.get_lhs,
    get_heads_eq_map m input h0 h1 hbE hbRot hbRefl hlen1 hlen2, Option.some_bind,
    colNth_eq_map 1 input h1, Option.some_bind,
    embed_eq_map m.relations _ (by
      intro i hi
      obtain ⟨row, hrow, rfl⟩ := List.mem_map.mp hi
      exact hbR row hrow),
    Option.some_bind, List.map_map,
    batchOp_map vadd input _ _ (by
      intro row hrow
      simpa using hlen3 row hrow)]
  simp

theorem rotref_lhs_isSome_iff (m : CFModelState) (input : List (List ℕ)) :
    (RotRefEuclidean.get_lhs m input).isSome = true ↔
      ((∀ row ∈ input, ∃ i, row[0]? = some i ∧ i < m.entities.length) ∧
       (∀ row ∈ input, ∃ i, row[1]? = some i ∧
         i < m.rotations.length ∧ i < m.reflections.length) ∧
       (∀ row ∈ input,
         (tget m.rotations (row.getD 1 0)).length
           = (tget m.entities (row.getD 0 0)).length) ∧
       (∀ row ∈ input,
         (tget m.reflections (row.getD 1 0)).length
           = (vmul (tget m.rotations (row.getD 1 0))
               (tget m.entities (row.getD 0 0))).length) ∧
       (∀ row ∈ input, ∃ i, row[1]? = some i ∧ i < m.relations.length) ∧
       (∀ row ∈ input,
         (vmul (tget m.reflections (row.getD 1 0))
            (vmul (tget m.rotations (row.getD 1 0))
              (tget m.entities (row.getD 0 0)))).length
           = (tget m.relations (row.getD 1 0)).length)) := by
  constructor
  · intro hsome
    rw [RotRefEuclidean.get_lhs] at hsome
    have hh : (RotRefBase.get_heads m input).isSome = true := bind_isSome_left _ _ hsome
    obtain ⟨hA, hB, hC, hD⟩ := (get_heads_isSome_iff m input).mp hh
    have hrows0 : ∀ row ∈ input, 0 < row.length := by
      intro row hrow
      obtain ⟨i, hi, _⟩ := hA row hrow
      exact (getElem?_isSome_iff row 0).mp (by simp [hi])
    have hrows1 : ∀ row ∈ input, 1 < row.length := by
      intro row hrow
      obtain ⟨i, hi, _⟩ := hB row hrow
      exact (getElem?_isSome_iff row 1).mp (by simp [hi])
    have hbE : ∀ row ∈ input, row.getD 0 0 < m.entities.length := by
      intro row hrow
      obtain ⟨i, hi, hlt⟩ := hA row hrow
      rw [getD_eq_of_getElem? row 0 i 0 hi]
      exact hlt
    have hbRot : ∀ row ∈ input, row.getD 1 0 < m.rotations.length := by
      intro row hrow
      obtain ⟨i, hi, hlt, _⟩ := hB row hrow
      rw [getD_eq_of_getElem? row 1 i 0 hi]
      exact hlt
    have hbRefl : ∀ row ∈ input, row.getD 1 0 < m.reflections.length := by
      intro row hrow
      obtain ⟨i, hi, _, hlt⟩ := hB row hrow
      rw [getD_eq_of_getElem? row 1 i 0 hi]
      exact hlt
    rw [get_heads_eq_map m input hrows0 hrows1 hbE hbRot hbRefl hC hD,
      Option.some_bind, colNth_eq_map 1 input hrows1, Option.some_bind] at hsome
    have he : (embed m.relations (input.map (fun row => row.getD 1 0))).isSome = true :=
      bind_isSome_left _ _ hsome
    have hbR := (embed_isSome_iff m.relations _).mp he
    rw [embed_eq_map m.relations _ hbR, Option.some_bind, List.map_map] at hsome
    have hlen3 := (sameShape_map_iff input _ _).mp ((batchOp_isSome_iff vadd _ _).mp hsome)
    refine ⟨hA, hB, hC, hD, ?_, ?_⟩
    · intro row hrow
      exact ⟨row.getD 1 0, getElem?_getD_self row 1 0 (hrows1 row hrow),
        hbR _ (List.mem_map_of_mem _ hrow)⟩
    · intro row hrow
      simpa using hlen3 row hrow
  · rintro ⟨hA, hB, hC, hD, hE, hF⟩
    have hrows0 : ∀ row ∈ input, 0 < row.length := by
      intro row hrow
      obtain ⟨i, hi, _⟩ := hA row hrow
      exact (getElem?_isSome_iff row 0).mp (by simp [hi])
    have hrows1 : ∀ row ∈ input, 1 < row.length := by
      intro row hrow
      obtain ⟨i, hi, _⟩ := hB row hrow
      exact (getElem?_isSome_iff row 1).mp (by simp [hi])
    have hbE : ∀ row ∈ input, row.getD 0 0 < m.entities.length := by
      intro row hrow
      obtain ⟨i, hi, hlt⟩ := hA row hrow
      rw [getD_eq_of_getElem? row 0 i 0 hi]
      exact hlt
    have hbRot : ∀ row ∈ input, row.getD 1 0 < m.rotations.length := by
      intro row hrow
      obtain ⟨i, hi, hlt, _⟩ := hB row hrow
      rw [getD_eq_of_getElem? row 1 i 0 hi]
      exact hlt
    have hbRefl : ∀ row ∈ input, row.getD 1 0 < m.reflections.length := by
      intro row hrow
      obtain ⟨i, hi, _, hlt⟩ := hB row hrow
      rw [getD_eq_of_getElem? row 1 i 0 hi]
      exact hlt
    have hbR : ∀ row ∈ input, row.getD 1 0 < m.relations.length := by
      intro row hrow
      obtain ⟨i, hi, hlt⟩ := hE row hrow
      rw [getD_eq_of_getElem? row 1 i 0 hi]
      exact hlt
    rw [rotref_lhs_eq_map m input hrows0 hrows1 hbE hbRot hbRefl hC hD hbR hF]
    rfl

/-- C6: for every batch of id triples within table bounds, on a model whose
tables all have the fixed embedding dimension `d`, `get_lhs` and `get_rhs` of
every Euclidean model in the file — `SimpleFactor`, `TransE`, `MuREuclidean`
and `RotRefEuclidean` — succeed and return batches whose every vector has
length `d`, so the lhs and rhs passed to `similarity_score` always have
matching last dimensions.  (`UserAttentiveEuclidean` overrides only
`similarity_score`; its `get_lhs`/`get_rhs` come from `UserAttentiveBase`,
which is neither in `src/` nor described by the spec.) -/
theorem C6_fixed_dims (m : CFModelState) (d : ℕ)
    (hE : ∀ v ∈ m.entities, v.length = d) (hR : ∀ v ∈ m.relations, v.length = d)
    (hT : ∀ v ∈ m.transforms, v.length = d)
    (hRot : ∀ v ∈ m.rotations, v.length = d)
    (hRefl : ∀ v ∈ m.reflections, v.length = d)
    (batch : List (List ℕ))
    (hb : ∀ row ∈ batch, ∃ h r t : ℕ, row = [h, r, t] ∧
      h < m.entities.length ∧ r < m.relations.length ∧
      r < m.transforms.length ∧ r < m.rotations.length ∧
      r < m.reflections.length ∧ t < m.entities.length) :
    (∃ L, SimpleFactor.get_lhs m batch = some L ∧ ∀ v ∈ L, v.length = d) ∧
    (∃ L, TransE.get_lhs m batch = some L ∧ ∀ v ∈ L, v.length = d) ∧
    (∃ L, MuREuclidean.get_lhs m batch = some L ∧ ∀ v ∈ L, v.length = d) ∧
    (∃ L, RotRefEuclidean.get_lhs m batch = some L ∧ ∀ v ∈ L, v.length = d) ∧
    (∃ R0, SimpleFactor.get_rhs m batch = some R0 ∧ ∀ v ∈ R0, v.length = d) ∧
    (∃ R1, TransE.get_rhs m batch = some R1 ∧ ∀ v ∈ R1, v.length = d) ∧
    (∃ R2, MuREuclidean.get_rhs m batch = some R2 ∧ ∀ v ∈ R2, v.length = d) ∧
    (∃ R3, RotRefEuclidean.get_rhs m batch = some R3 ∧ ∀ v ∈ R3, v.length = d) := by
  have hb0 : ∀ row ∈ batch, row.getD 0 0 < m.entities.length := by
    intro row hrow
    obtain ⟨h, r, t, rfl, hh, _⟩ := hb row hrow
    exact hh
  have hb1R : ∀ row ∈ batch, row.getD 1 0 < m.relations.length := by
    intro row hrow
    obtain ⟨h, r, t, rfl, _, hr, _⟩ := hb row hrow
    exact hr
  have hb1T : ∀ row ∈ batch, row.getD 1 0 < m.transforms.length := by
    intro row hrow
    obtain ⟨h, r, t, rfl, _, _, htr, _⟩ := hb row hrow
    exact htr
  have hb1Rot : ∀ row ∈ batch, row.getD 1 0 < m.rotations.length := by
    intro row hrow
    obtain ⟨h, r, t, rfl, _, _, _, hro, _⟩ := hb row hrow
    exact hro
  have hb1Refl : ∀ row ∈ batch, row.getD 1 0 < m.reflections.length := by
    intro row hrow
    obtain ⟨h, r, t, rfl, _, _, _, _, hre, _⟩ := hb row hrow
    exact hre
  have hb2 : ∀ row ∈ batch, row.getD 2 0 < m.entities.length := by
    intro row hrow
    obtain ⟨h, r, t, rfl, _, _, _, _, _, ht⟩ := hb row hrow
    exact ht
  have hs0 : ∀ row ∈ batch, 0 < row.length := by
    intro row hrow
    obtain ⟨h, r, t, rfl, _⟩ := hb row hrow
    simp
  have hs1 : ∀ row ∈ batch, 1 < row.length := by
    intro row hrow
    obtain ⟨h, r, t, rfl, _⟩ := hb row hrow
    simp
  have hne : ∀ row ∈ batch, row ≠ [] := by
    intro row hrow
    obtain ⟨h, r, t, rfl, _⟩ := hb row hrow
    simp
  have hbl : ∀ row ∈ batch, row.getLastD 0 < m.entities.length := by
    intro row hrow
    obtain ⟨h, r, t, rfl, _⟩ := hb row hrow
    simpa using hb2 _ hrow
  have hrhs := base_rhs_eq m batch hne hbl
  have hrhslen : ∀ v ∈ batch.map (fun row => tget m.entities (row.getLastD 0)),
      v.length = d := by
    intro v hv
    obtain ⟨row, hrow, rfl⟩ := List.mem_map.mp hv
    exact tget_length m.entities d hE _ (hbl row hrow)
  refine ⟨⟨_, lhs_pipeline m.entities m.relations 0 1 vmul batch hs0 hs1 hb0 hb1R
      (by
        intro row hrow
        rw [tget_length m.entities d hE _ (hb0 row hrow),
          tget_length m.relations d hR _ (hb1R row hrow)]), ?_⟩,
    ⟨_, lhs_pipeline m.entities m.relations 0 1 vadd batch hs0 hs1 hb0 hb1R
      (by
        intro row hrow
        rw [tget_length m.entities d hE _ (hb0 row hrow),
          tget_length m.relations d hR _ (hb1R row hrow)]), ?_⟩,
    ⟨_, lhs_pipeline_swap m.entities m.transforms 0 1 vmul batch hs0 hs1 hb0 hb1T
      (by
        intro row hrow
        rw [tget_length m.transforms d hT _ (hb1T row hrow),
          tget_length m.entities d hE _ (hb0 row hrow)]), ?_⟩,
    ⟨_, rotref_lhs_eq_map m batch hs0 hs1 hb0 hb1Rot hb1Refl
      (by
        intro row hrow
        rw [tget_length m.rotations d hRot _ (hb1Rot row hrow),
          tget_length m.entities d hE _ (hb0 row hrow)])
      (by
        intro row hrow
        rw [vmul_length, tget_length m.reflections d hRefl _ (hb1Refl row hrow),
          tget_length m.rotations d hRot _ (hb1Rot row hrow),
          tget_length m.entities d hE _ (hb0 row hrow)]
        simp)
      hb1R
      (by
        intro row hrow
        rw [vmul_length, vmul_length,
          tget_length m.reflections d hRefl _ (hb1Refl row hrow),
          tget_length m.rotations d hRot _ (hb1Rot row hrow),
          tget_length m.entities d hE _ (hb0 row hrow),
          tget_length m.relations d hR _ (hb1R row hrow)]
        simp), ?_⟩,
    ⟨_, hrhs, hrhslen⟩, ⟨_, hrhs, hrhslen⟩,
    ⟨_, rhs_pipeline m.entities m.relations 1 vadd batch hne hs1 hbl hb1R
      (by
        intro row hrow
        rw [tget_length m.entities d hE _ (hbl row hrow),
          tget_length m.relations d hR _ (hb1R row hrow)]), ?_⟩,
    ⟨_, hrhs, hrhslen⟩⟩
  · intro v hv
    obtain ⟨row, hrow, rfl⟩ := List.mem_map.mp hv
    rw [vmul_length, tget_length m.entities d hE _ (hb0 row hrow),
      tget_length m.relations d hR _ (hb1R row hrow)]
    simp
  · intro v hv
    obtain ⟨row, hrow, rfl⟩ := List.mem_map.mp hv
    rw [vadd_length, tget_length m.entities d hE _ (hb0 row hrow),
      tget_length m.relations d hR _ (hb1R row hrow)]
    simp
  · intro v hv
    obtain ⟨row, hrow, rfl⟩ := List.mem_map.mp hv
    rw [vmul_length, tget_length m.transforms d hT _ (hb1T row hrow),
      tget_length m.entities d hE _ (hb0 row hrow)]
    simp
  · intro v hv
    obtain ⟨row, hrow, rfl⟩ := List.mem_map.mp hv
    rw [vadd_length, vmul_length, vmul_length,
      tget_length m.reflections d hRefl _ (hb1Refl row hrow),
      tget_length m.rotations d hRot _ (hb1Rot row hrow),
      tget_length m.entities d hE _ (hb0 row hrow),
      tget_length m.relations d hR _ (hb1R row hrow)]
    simp
  · intro v hv
    obtain ⟨row, hrow, rfl⟩ := List.mem_map.mp hv
    rw [vadd_length, tget_length m.entities d hE _ (hbl row hrow),
      tget_length m.relations d hR _ (hb1R row hrow)]
    simp

/-- Witness for C6 at a concrete model and batch. -/
theorem C6_fixed_dims_witness :
    (∃ L, SimpleFactor.get_lhs
        (CFModelState.mk [[1], [2]] [[10]] [[3]] [[4]] [[5]]) [[0, 0, 1]]
      = some L ∧ ∀ v ∈ L, v.length = 1) ∧
    (∃ L, TransE.get_lhs
        (CFModelState.mk [[1], [2]] [[10]] [[3]] [[4]] [[5]]) [[0, 0, 1]]
      = some L ∧ ∀ v ∈ L, v.length = 1) ∧
    (∃ L, MuREuclidean.get_lhs
        (CFModelState.mk [[1], [2]] [[10]] [[3]] [[4]] [[5]]) [[0, 0, 1]]
      = some L ∧ ∀ v ∈ L, v.length = 1) ∧
    (∃ L, RotRefEuclidean.get_lhs
        (CFModelState.mk [[1], [2]] [[10]] [[3]] [[4]] [[5]]) [[0, 0, 1]]
      = some L ∧ ∀ v ∈ L, v.length = 1) ∧
    (∃ R0, SimpleFactor.get_rhs
        (CFModelState.mk [[1], [2]] [[10]] [[3]] [[4]] [[5]]) [[0, 0, 1]]
      = some R0 ∧ ∀ v ∈ R0, v.length = 1) ∧
    (∃ R1, TransE.get_rhs
        (CFModelState.mk [[1], [2]] [[10]] [[3]] [[4]] [[5]]) [[0, 0, 1]]
      = some R1 ∧ ∀ v ∈ R1, v.length = 1) ∧
    (∃ R2, MuREuclidean.get_rhs
        (CFModelState.mk [[1], [2]] [[10]] [[3]] [[4]] [[5]]) [[0, 0, 1]]
      = some R2 ∧ ∀ v ∈ R2, v.length = 1) ∧
    (∃ R3, RotRefEuclidean.get_rhs
        (CFModelState.mk [[1], [2]] [[10]] [[3]] [[4]] [[5]]) [[0, 0, 1]]
      = some R3 ∧ ∀ v ∈ R3, v.length = 1) :=
  C6_fixed_dims (CFModelState.mk [[1], [2]] [[10]] [[3]] [[4]] [[5]]) 1
    (by
      intro v hv
      simp at hv
      rcases hv with rfl | rfl <;> rfl)
    (by
      intro v hv
      simp at hv
      subst hv
      rfl)
    (by
      intro v hv
      simp at hv
      subst hv
      rfl)
    (by
      intro v hv
      simp at hv
      subst hv
      rfl)
    (by
      intro v hv
      simp at hv
      subst hv
      rfl)
    [[0, 0, 1]]
    (by
      intro row hrow
      simp at hrow
      subst hrow
      exact ⟨0, 0, 1, rfl, by decide, by decide, by decide, by decide, by decide,
        by decide⟩)

/-- C7: each scoring operation of each model errors exactly when an embedding
lookup id is out of table bounds or the operand tensor shapes mismatch, and
succeeds otherwise: `get_lhs` of `SimpleFactor`, `TransE`, `MuREuclidean`
and `RotRefEuclidean` succeeds iff the ids its columns look up are in the
bounds of the tables it reads and the looked-up vectors have conforming
lengths for its elementwise operations; `get_rhs` of every model succeeds
iff every row has a last column with an in-bounds entity id (plus, for
`MuREuclidean`, in-bounds relation ids and conforming lengths); and every
`similarity_score` succeeds iff its operand shapes conform.  So under
in-bounds ids and shape-conforming inputs the error branch is unreachable. -/
theorem C7_error_iff (m : CFModelState) (input : List (List ℕ)) (lhs rhs : Mat)
    (rhs3 : List Mat) :
    ((SimpleFactor.get_lhs m input).isSome = true ↔
      ((∀ row ∈ input, ∃ i, row[0]? = some i ∧ i < m.entities.length) ∧
       (∀ row ∈ input, ∃ i, row[1]? = some i ∧ i < m.relations.length) ∧
       (∀ row ∈ input,
         (tget m.entities (row.getD 0 0)).length
           = (tget m.relations (row.getD 1 0)).length))) ∧
    ((TransE.get_lhs m input).isSome = true ↔
      ((∀ row ∈ input, ∃ i, row[0]? = some i ∧ i < m.entities.length) ∧
       (∀ row ∈ input, ∃ i, row[1]? = some i ∧ i < m.relations.length) ∧
       (∀ row ∈ input,
         (tget m.entities (row.getD 0 0)).length
           = (tget m.relations (row.getD 1 0)).length))) ∧
    ((MuREuclidean.get_lhs m input).isSome = true ↔
      ((∀ row ∈ input, ∃ i, row[0]? = some i ∧ i < m.entities.length) ∧
       (∀ row ∈ input, ∃ i, row[1]? = some i ∧ i < m.transforms.length) ∧
       (∀ row ∈ input,
         (tget m.transforms (row.getD 1 0)).length
           = (tget m.entities (row.getD 0 0)).length))) ∧
    ((RotRefEuclidean.get_lhs m input).isSome = true ↔
      ((∀ row ∈ input, ∃ i, row[0]? = some i ∧ i < m.entities.length) ∧
       (∀ row ∈ input, ∃ i, row[1]? = some i ∧
         i < m.rotations.length ∧ i < m.reflections.length) ∧
       (∀ row ∈ input,
         (tget m.rotations (row.getD 1 0)).length
           = (tget m.entities (row.getD 0 0)).length) ∧
       (∀ row ∈ input,
         (tget m.reflections (row.getD 1 0)).length
           = (vmul (tget m.rotations (row.getD 1 0))
               (tget m.entities (row.getD 0 0))).length) ∧
       (∀ row ∈ input, ∃ i, row[1]? = some i ∧ i < m.relations.length) ∧
       (∀ row ∈ input,
         (vmul (tget m.reflections (row.getD 1 0))
            (vmul (tget m.rotations (row.getD 1 0))
              (tget m.entities (row.getD 0 0)))).length
           = (tget m.relations (row.getD 1 0)).length))) ∧
    ((SimpleFactor.get_rhs m input).isSome = true ↔
      ∀ row ∈ input, ∃ t, row.getLast? = some t ∧ t < m.entities.length) ∧
    ((TransE.get_rhs m input).isSome = true ↔
      ∀ row ∈ input, ∃ t, row.getLast? = some t ∧ t < m.entities.length) ∧
    ((RotRefEuclidean.get_rhs m input).isSome = true ↔
      ∀ row ∈ input, ∃ t, row.getLast? = some t ∧ t < m.entities.length) ∧
    ((CFEuclideanBase.get_rhs m input).isSome = true ↔
      ∀ row ∈ input, ∃ t, row.getLast? = some t ∧ t < m.entities.length) ∧
    ((MuREuclidean.get_rhs m input).isSome = true ↔
      ((∀ row ∈ input, ∃ t, row.getLast? = some t ∧ t < m.entities.length) ∧
       (∀ row ∈ input, ∃ i, row[1]? = some i ∧ i < m.relations.length) ∧
       (∀ row ∈ input,
         (tget m.entities (row.getLastD 0)).length
           = (tget m.relations (row.getD 1 0)).length))) ∧
    ((CFEuclideanBase.similarity_score lhs rhs false).isSome = true ↔
      List.Forall₂ (fun x y => List.length x = List.length y) lhs rhs) ∧
    ((CFEuclideanBase.similarity_score lhs rhs true).isSome = true ↔
      ∀ x ∈ lhs, ∀ y ∈ rhs, List.length x = List.length y) ∧
    ((SimpleFactor.similarity_score lhs rhs false).isSome = true ↔
      List.Forall₂ (fun x y => List.length x = List.length y) lhs rhs) ∧
    ((SimpleFactor.similarity_score lhs rhs true).isSome = true ↔
      ∀ x ∈ lhs, ∀ y ∈ rhs, List.length x = List.length y) ∧
    ((UserAttentiveEuclidean.similarity_score_single lhs rhs).isSome = true ↔
      List.Forall₂ (fun x y => List.length x = List.length y) lhs rhs) ∧
    ((UserAttentiveEuclidean.similarity_score_all lhs rhs3).isSome = true ↔
      (lhs.length = rhs3.length ∧
       ∀ p ∈ List.zip lhs rhs3, ∀ y ∈ p.2, List.length p.1 = List.length y)) := by
  have hall : (lhs.all (fun x => rhs.all (fun y => List.length x == List.length y))
      = true) ↔ ∀ x ∈ lhs, ∀ y ∈ rhs, List.length x = List.length y := by
    simp [List.all_eq_true]
  have hgall : ((lhs.length == rhs3.length
      && (List.zip lhs rhs3).all
        (fun p => p.2.all (fun y => List.length p.1 == List.length y))) = true) ↔
      (lhs.length = rhs3.length ∧
       ∀ p ∈ List.zip lhs rhs3, ∀ y ∈ p.2, List.length p.1 = List.length y) := by
    simp [List.all_eq_true]
  refine ⟨lhs_pipeline_isSome_iff m.entities m.relations 0 1 vmul input,
    lhs_pipeline_isSome_iff m.entities m.relations 0 1 vadd input,
    lhs_pipeline_swap_isSome_iff m.entities m.transforms 0 1 vmul input,
    rotref_lhs_isSome_iff m input,
    get_rhs_isSome_iff m input, get_rhs_isSome_iff m input,
    get_rhs_isSome_iff m input, get_rhs_isSome_iff m input,
    rhs_pipeline_isSome_iff m.entities m.relations 1 vadd input,
    ?_, ?_, ?_, ?_, ?_, ?_⟩
  · rw [← sameShape_iff]
    by_cases hss : sameShape lhs rhs = true <;>
      simp [CFEuclideanBase.similarity_score, euclidean_sq_distance, hss]
  · rw [← hall]
    by_cases hg : (lhs.all (fun x => rhs.all (fun y => List.length x == List.length y)))
        = true <;>
      simp [CFEuclideanBase.similarity_score, euclidean_sq_distance, hg]
  · rw [← sameShape_iff]
    by_cases hss : sameShape lhs rhs = true <;>
      simp [SimpleFactor.similarity_score, hss]
  · rw [← hall]
    by_cases hg : (lhs.all (fun x => rhs.all (fun y => List.length x == List.length y)))
        = true <;>
      simp [SimpleFactor.similarity_score, hg]
  · rw [← sameShape_iff]
    by_cases hss : sameShape lhs rhs = true <;>
      simp [UserAttentiveEuclidean.similarity_score_single, euclidean_sq_distance, hss]
  · rw [← hgall]
    by_cases hg : ((lhs.length == rhs3.length
        && (List.zip lhs rhs3).all
          (fun p => p.2.all (fun y => List.length p.1 == List.length y)))) = true <;>
      simp [UserAttentiveEuclidean.similarity_score_all,
        euclidean_sq_distance_batched_all_pairs, hg]
